import Mathlib

/-!
Verification of the ambient "network pulse" background visualization of
LunarSphere/hacklytics-2026 (`src/frontend/app.js`, with a near-identical
draft in `src/unnamed/part_000`).

The JavaScript core is shallowly embedded: JS numbers are modelled as `ℚ`
(the relevant logic is exact rational arithmetic except for `Math.exp`,
`Math.sqrt` which are passed in as function parameters, and `Math.random()`
draws which are passed in as explicit inputs).  Module-level mutable state
(`nextId`, `nodes`, `connections`, `currentColor`, spawn timers) is an
explicit state record, and every mutating routine becomes a state
transformer.  `nodeMap` in the source is maintained in lockstep with the
`nodes` array (every push/removal updates both, and ids are unique), so it
is modelled as the derived lookup `hasNode` over the node list.
-/

namespace NetPulse

/-- An RGB color triple (JS arrays `[r, g, b]`). -/
structure RGB where
  r : ℚ
  g : ℚ
  b : ℚ
deriving DecidableEq, Repr

/-- `var COLOR_NEUTRAL = [60, 62, 70]`. -/
def COLOR_NEUTRAL : RGB := ⟨60, 62, 70⟩

/-- One entry of the color stop table: `{ score: ..., color: [...] }`. -/
structure Stop where
  score : ℚ
  color : RGB
deriving DecidableEq, Repr

/-- `var COLOR_STOPS = [...]` — six stops from green (safe) to red (danger). -/
def COLOR_STOPS : List Stop :=
  [ ⟨0,   ⟨58, 138, 92⟩⟩,
    ⟨25,  ⟨58, 138, 92⟩⟩,
    ⟨40,  ⟨138, 138, 58⟩⟩,
    ⟨60,  ⟨196, 154, 58⟩⟩,
    ⟨75,  ⟨196, 100, 42⟩⟩,
    ⟨100, ⟨184, 58, 42⟩⟩ ]

/-- `function clamp(v, lo, hi) { return Math.max(lo, Math.min(hi, v)); }`. -/
def clamp (v lo hi : ℚ) : ℚ := max lo (min hi v)

/-- The channel-wise interpolation `a.color[k] + (b.color[k] - a.color[k]) * t`
with `t = (s - a.score) / (b.score - a.score)` from the loop body of
`getTargetColor`. -/
def lerpStops (a b : Stop) (s : ℚ) : RGB :=
  ⟨ a.color.r + (b.color.r - a.color.r) * ((s - a.score) / (b.score - a.score)),
    a.color.g + (b.color.g - a.color.g) * ((s - a.score) / (b.score - a.score)),
    a.color.b + (b.color.b - a.color.b) * ((s - a.score) / (b.score - a.score)) ⟩

/-- The `for (var i = 0; i < COLOR_STOPS.length - 1; i++)` scan of
`getTargetColor`: return the interpolation at the first bracketing pair of
consecutive stops, else fall through to the last stop's color (the
singleton case); the empty case is unreachable for the fixed table. -/
def stopScan : List Stop → ℚ → RGB
  | a :: b :: rest, s =>
      if a.score ≤ s ∧ s ≤ b.score then lerpStops a b s
      else stopScan (b :: rest) s
  | [a], _ => a.color
  | [], _ => COLOR_NEUTRAL

/-- `function getTargetColor(score)` — `none` models both `null` and
`undefined` JS inputs. -/
def getTargetColor : Option ℚ → RGB
  | none => COLOR_NEUTRAL
  | some score => stopScan COLOR_STOPS (clamp score 0 100)

/-- `function lerpRGB(current, target, speed)` (the in-place mutation is
returned as the new color value). -/
def lerpRGB (current target : RGB) (speed : ℚ) : RGB :=
  ⟨ current.r + (target.r - current.r) * speed,
    current.g + (target.g - current.g) * speed,
    current.b + (target.b - current.b) * speed ⟩

/-- `function lifecycleOpacity(age, lifetime)`. -/
def lifecycleOpacity (age lifetime : ℚ) : ℚ :=
  let t := age / lifetime
  if t < 0 ∨ t > 1 then 0
  else if t < 1/10 then t / (1/10)
  else if t < 6/10 then 1
  else 1 - (t - 6/10) / (4/10)

/-! Configuration constants (`// --- Config ---` block). -/

def MAX_NODES : ℕ := 65
def NODE_SPAWN_INTERVAL : ℚ := 6/10
def CONN_SPAWN_INTERVAL : ℚ := 4/10
def NODE_RADIUS_MIN : ℚ := 3/2
def NODE_RADIUS_MAX : ℚ := 3
def NODE_LIFETIME_MIN : ℚ := 10
def NODE_LIFETIME_MAX : ℚ := 22
def CONN_FADE_IN : ℚ := 3/2
def MAX_CONNECTIONS : ℕ := 80
def MAX_LINE_ALPHA : ℚ := 38/100
def MAX_NODE_ALPHA : ℚ := 1/2
def MAX_GLOW_ALPHA : ℚ := 14/100
def DRIFT_SPEED : ℚ := 4/1000
def MIN_NODE_DIST : ℚ := 8/100
def DIST_REF : ℚ := 25/100

/-! Simulation data model. -/

/-- A graph node (the object literal built by `createNode`). -/
structure Node where
  id : ℕ
  x : ℚ
  y : ℚ
  birthTime : ℚ
  lifetime : ℚ
  radius : ℚ
  driftX : ℚ
  driftY : ℚ
deriving DecidableEq, Repr

/-- A connection (the object literal pushed by `trySpawnConnection` /
`seedConnections`). -/
structure Conn where
  idA : ℕ
  idB : ℕ
  birthTime : ℚ
  lifetime : ℚ
deriving DecidableEq, Repr

/-- The six raw `Math.random()` draws consumed by one `createNode` call,
each in `[0, 1)`. -/
structure CRand where
  ux : ℚ
  uy : ℚ
  ul : ℚ
  ur : ℚ
  udx : ℚ
  udy : ℚ
deriving DecidableEq, Repr

/-- The module-level mutable state of the visualization. -/
structure St where
  nextId : ℕ
  nodes : List Node
  connections : List Conn
  currentColor : RGB
  lastNodeSpawn : ℚ
  lastConnSpawn : ℚ
deriving Repr

/-- The state right after the module initializes its variables. -/
def initSt : St :=
  { nextId := 0, nodes := [], connections := [], currentColor := COLOR_NEUTRAL,
    lastNodeSpawn := 0, lastConnSpawn := 0 }

/-- `nodeMap[i]` truthiness; the map mirrors the `nodes` array exactly
(every insertion and removal updates both in the source). -/
def hasNode (nodes : List Node) (i : ℕ) : Bool :=
  nodes.any fun n => n.id == i

/-- `function createNode(time)` with its `Math.random()` draws `u` and the
`nextId++` value `nid` made explicit. -/
def createNode (time : ℚ) (u : CRand) (nid : ℕ) : Node :=
  { id := nid,
    x := u.ux,
    y := u.uy,
    birthTime := time,
    lifetime := NODE_LIFETIME_MIN + u.ul * (NODE_LIFETIME_MAX - NODE_LIFETIME_MIN),
    radius := NODE_RADIUS_MIN + u.ur * (NODE_RADIUS_MAX - NODE_RADIUS_MIN),
    driftX := (u.udx - 1/2) * 2 * DRIFT_SPEED,
    driftY := (u.udy - 1/2) * 2 * DRIFT_SPEED }

/-- `function isTooClose(x, y, elapsed)`: a candidate position collides when
some non-expired node's drift-adjusted position is within `MIN_NODE_DIST`. -/
def isTooClose (nodes : List Node) (x y elapsed : ℚ) : Bool :=
  nodes.any fun n =>
    let age := elapsed - n.birthTime
    if age > n.lifetime then false
    else
      let nx := n.x + n.driftX * age
      let ny := n.y + n.driftY * age
      decide ((x - nx) * (x - nx) + (y - ny) * (y - ny) < MIN_NODE_DIST * MIN_NODE_DIST)

/-- The `for (var attempt = 0; attempt < 8; attempt++)` loop of `spawnNode`:
`k` is the next attempt index, `fuel` the remaining attempts.  Rejected
candidates still consume an id (`createNode` increments `nextId`). -/
def spawnNodeGo (time : ℚ) (gen : ℕ → CRand) : ℕ → ℕ → St → St
  | _, 0, s => s
  | k, fuel + 1, s =>
      let n := createNode time (gen k) s.nextId
      let s1 := { s with nextId := s.nextId + 1 }
      if isTooClose s.nodes n.x n.y time then spawnNodeGo time gen (k + 1) fuel s1
      else { s1 with nodes := s1.nodes ++ [n] }

/-- `function spawnNode(time)`; `gen k` supplies the random draws of the
`k`-th `createNode` attempt. -/
def spawnNode (gen : ℕ → CRand) (time : ℚ) (s : St) : St :=
  if s.nodes.length ≥ MAX_NODES then s
  else spawnNodeGo time gen 0 8 s

/-- `function nodePos(n, elapsed)` — drift-adjusted screen position. -/
def nodePos (n : Node) (elapsed w h : ℚ) : ℚ × ℚ :=
  let age := elapsed - n.birthTime
  ((n.x + n.driftX * age) * w, (n.y + n.driftY * age) * h)

/-- `function connectionExists(idA, idB)` — membership of the unordered pair. -/
def connectionExists (conns : List Conn) (idA idB : ℕ) : Bool :=
  conns.any fun c =>
    (c.idA == idA && c.idB == idB) || (c.idA == idB && c.idB == idA)

/-- Placeholder node for out-of-range indexing (`nodes[aIdx]` in the source
is always in range because `Math.random() < 1`). -/
def dNode : Node := { id := 0, x := 0, y := 0, birthTime := 0, lifetime := 0,
                      radius := 0, driftX := 0, driftY := 0 }

/-- JS `(u * len) | 0` for `u ∈ [0, 1)`: truncation of `u * len`. -/
def randIdx (u : ℚ) (len : ℕ) : ℕ := (⌊u * len⌋).toNat

/-- The candidate-collection loop of `trySpawnConnection` (`for (var i = 0;
i < nodes.length; i++)`), returning the `{ node, weight }` pairs in order.
`rexp` and `rsqrt` model `Math.exp` / `Math.sqrt`. -/
def connCandidates (rexp rsqrt : ℚ → ℚ) (refPx ax ay elapsed w h : ℚ)
    (aIdx : ℕ) (aId : ℕ) (nodes : List Node) (conns : List Conn) :
    List (Node × ℚ) :=
  nodes.enum.filterMap fun p =>
    if p.1 == aIdx then none
    else
      let b := p.2
      let bOp := lifecycleOpacity (elapsed - b.birthTime) b.lifetime
      if bOp < 3/10 then none
      else if connectionExists conns aId b.id then none
      else
        let bPos := nodePos b elapsed w h
        let dist := rsqrt ((ax - bPos.1) * (ax - bPos.1) + (ay - bPos.2) * (ay - bPos.2))
        some (b, rexp (-(dist / refPx)))

/-- The cumulative-weight selection loop of `trySpawnConnection`
(`chosen` starts at `candidates[0].node` and is replaced at the first
candidate where the running `pick` drops to `≤ 0`). -/
def pickChosen : List (Node × ℚ) → ℚ → Node → Node
  | [], _, chosen => chosen
  | c :: rest, pick, chosen =>
      let pick1 := pick - c.2
      if pick1 ≤ 0 then c.1 else pickChosen rest pick1 chosen

/-- `var a = nodes[aIdx]` of `trySpawnConnection`. -/
def connA (uA : ℚ) (s : St) : Node :=
  s.nodes.getD (randIdx uA s.nodes.length) dNode

/-- The `candidates` array of `trySpawnConnection` (with `refPx` and `a`'s
screen position filled in). -/
def connCands (rexp rsqrt : ℚ → ℚ) (w h uA elapsed : ℚ) (s : St) :
    List (Node × ℚ) :=
  connCandidates rexp rsqrt (DIST_REF * rsqrt (w * w + h * h))
    (nodePos (connA uA s) elapsed w h).1 (nodePos (connA uA s) elapsed w h).2
    elapsed w h (randIdx uA s.nodes.length) (connA uA s).id s.nodes s.connections

/-- The `chosen` node of `trySpawnConnection`
(`pick = Math.random() * totalWeight`). -/
def connChosen (rexp rsqrt : ℚ → ℚ) (w h uA uPick elapsed : ℚ) (s : St) : Node :=
  let cands := connCands rexp rsqrt w h uA elapsed s
  pickChosen cands (uPick * (cands.map fun c => c.2).sum) (cands.headD (dNode, 0)).1

/-- `connLife = Math.min(aRemaining, bRemaining)`. -/
def connLifeOf (a b : Node) (elapsed : ℚ) : ℚ :=
  min (a.lifetime - (elapsed - a.birthTime)) (b.lifetime - (elapsed - b.birthTime))

/-- `function trySpawnConnection(elapsed)`; `uA` and `uPick` are the two
`Math.random()` draws (source node index, weighted pick).  The source's
local variables `a`, `candidates`, `chosen`, `connLife` are the named
definitions above. -/
def trySpawnConnection (w h : ℚ) (rexp rsqrt : ℚ → ℚ) (uA uPick elapsed : ℚ)
    (s : St) : St :=
  if s.connections.length ≥ MAX_CONNECTIONS then s
  else if s.nodes.length < 2 then s
  else if lifecycleOpacity (elapsed - (connA uA s).birthTime) (connA uA s).lifetime
      < 1/2 then s
  else if (connCands rexp rsqrt w h uA elapsed s).length = 0
      ∨ ((connCands rexp rsqrt w h uA elapsed s).map fun c => c.2).sum ≤ 0 then s
  else if connLifeOf (connA uA s) (connChosen rexp rsqrt w h uA uPick elapsed s)
      elapsed < 2 then s
  else { s with connections := s.connections ++
          [⟨(connA uA s).id, (connChosen rexp rsqrt w h uA uPick elapsed s).id,
            elapsed,
            connLifeOf (connA uA s) (connChosen rexp rsqrt w h uA uPick elapsed s)
              elapsed⟩] }

/-! Seeding. -/

/-- The static (non-drift-adjusted) collision scan used by `seedNodes`
(`for (var j = 0; j < nodes.length; j++)`). -/
def tooCloseStatic (nodes : List Node) (x y : ℚ) : Bool :=
  nodes.any fun other =>
    decide ((x - other.x) * (x - other.x) + (y - other.y) * (y - other.y)
      < MIN_NODE_DIST * MIN_NODE_DIST)

/-- The random draws of one `seedNodes` iteration: the stagger draw and the
draws for up to 10 candidate attempts plus the fallback (`cands 10`). -/
structure SeedDraw where
  uStagger : ℚ
  cands : ℕ → CRand

/-- The `for (var attempt = 0; attempt < 10; attempt++)` loop of one
`seedNodes` iteration; returns the updated state and the `placed` flag. -/
def seedTry (ds : ℕ → CRand) (stagger : ℚ) : ℕ → ℕ → St → St × Bool
  | _, 0, s => (s, false)
  | k, fuel + 1, s =>
      let n := createNode stagger (ds k) s.nextId
      let s1 := { s with nextId := s.nextId + 1 }
      if tooCloseStatic s.nodes n.x n.y then seedTry ds stagger (k + 1) fuel s1
      else ({ s1 with nodes := s1.nodes ++ [n] }, true)

/-- One iteration of the `seedNodes` outer loop: 10 rejection-tested
attempts, then the unconditional fallback insertion. -/
def seedIter (d : SeedDraw) (s : St) : St :=
  let stagger := -(d.uStagger * NODE_LIFETIME_MAX * (1/2))
  let r := seedTry d.cands stagger 0 10 s
  if r.2 then r.1
  else
    let fallback := createNode stagger (d.cands 10) r.1.nextId
    { r.1 with nextId := r.1.nextId + 1, nodes := r.1.nodes ++ [fallback] }

/-- The `for (var i = 0; i < count; i++)` outer loop of `seedNodes`. -/
def seedNodesGo (dr : ℕ → SeedDraw) : ℕ → ℕ → St → St
  | _, 0, s => s
  | i, k + 1, s => seedNodesGo dr (i + 1) k (seedIter (dr i) s)

/-- `function seedNodes()` with `count = 40`. -/
def seedNodes (dr : ℕ → SeedDraw) (s : St) : St :=
  seedNodesGo dr 0 40 s

/-- The random draws of one `seedConnections` attempt. -/
structure ConnSeed where
  uA : ℚ
  uB : ℚ
  uAccept : ℚ
  uStagger : ℚ

/-- The `while (attempts > 0 && spawned < 20)` loop of `seedConnections`;
`att` counts attempts already consumed, `fuel` the remaining budget. -/
def seedConnGo (sw sh refPx : ℚ) (rexp rsqrt : ℚ → ℚ) (dr : ℕ → ConnSeed) :
    ℕ → ℕ → ℕ → St → St
  | _, 0, _, s => s
  | att, fuel + 1, spawned, s =>
      if spawned ≥ 20 then s
      else
        let d := dr att
        let len := s.nodes.length
        let aIdx := randIdx d.uA len
        let bIdx := randIdx d.uB len
        if aIdx = bIdx then seedConnGo sw sh refPx rexp rsqrt dr (att + 1) fuel spawned s
        else
          let a := s.nodes.getD aIdx dNode
          let b := s.nodes.getD bIdx dNode
          if connectionExists s.connections a.id b.id then
            seedConnGo sw sh refPx rexp rsqrt dr (att + 1) fuel spawned s
          else
            let dx := a.x * sw - b.x * sw
            let dy := a.y * sh - b.y * sh
            let dist := rsqrt (dx * dx + dy * dy)
            let prob := rexp (-(dist / refPx))
            if d.uAccept > prob then
              seedConnGo sw sh refPx rexp rsqrt dr (att + 1) fuel spawned s
            else
              let stagger := -(d.uStagger * 6)
              let aRemaining := a.lifetime - (-a.birthTime)
              let bRemaining := b.lifetime - (-b.birthTime)
              let connLife := min aRemaining bRemaining
              if connLife < 2 then
                seedConnGo sw sh refPx rexp rsqrt dr (att + 1) fuel spawned s
              else
                seedConnGo sw sh refPx rexp rsqrt dr (att + 1) fuel (spawned + 1)
                  { s with connections :=
                      s.connections ++ [⟨a.id, b.id, stagger, connLife⟩] }

/-- `function seedConnections()` (`var sw = w || 1200; var sh = h || 800`). -/
def seedConnections (w h : ℚ) (rexp rsqrt : ℚ → ℚ) (dr : ℕ → ConnSeed)
    (s : St) : St :=
  let sw := if w = 0 then 1200 else w
  let sh := if h = 0 then 800 else h
  let diag := rsqrt (sw * sw + sh * sh)
  let refPx := DIST_REF * diag
  seedConnGo sw sh refPx rexp rsqrt dr 0 100 0 s

/-! Frame driver (`function render()`); the drawing calls are pure and the
state mutations are, in order: color smoothing, gated node spawn, gated
connection spawn, dead-node prune, dead/orphaned-connection prune.  The
`w === 0 || h === 0` early return defers the whole frame, so modelled
frames carry valid dimensions. -/

/-- The per-frame external inputs: simulated time, the risk score read this
frame, the random draws, the `Math.exp`/`Math.sqrt` primitives, and the
canvas dimensions. -/
structure FrameIn where
  elapsed : ℚ
  riskScore : Option ℚ
  nodeGen : ℕ → CRand
  uA : ℚ
  uPick : ℚ
  rexp : ℚ → ℚ
  rsqrt : ℚ → ℚ
  w : ℚ
  h : ℚ

/-- The color-smoothing step of `render()`. -/
def frameColor (f : FrameIn) (s : St) : St :=
  { s with currentColor :=
      lerpRGB s.currentColor (getTargetColor f.riskScore) (25/1000) }

/-- The interval-gated node spawn of `render()`. -/
def frameSpawnNode (rm : Bool) (f : FrameIn) (s : St) : St :=
  if ¬rm ∧ f.elapsed - s.lastNodeSpawn > NODE_SPAWN_INTERVAL then
    { spawnNode f.nodeGen f.elapsed s with lastNodeSpawn := f.elapsed }
  else s

/-- The interval-gated connection spawn of `render()`. -/
def frameSpawnConn (rm : Bool) (f : FrameIn) (s : St) : St :=
  if ¬rm ∧ f.elapsed - s.lastConnSpawn > CONN_SPAWN_INTERVAL then
    { trySpawnConnection f.w f.h f.rexp f.rsqrt f.uA f.uPick f.elapsed s with
        lastConnSpawn := f.elapsed }
  else s

/-- The `// Remove dead nodes` pass of `render()` (backwards splice =
order-preserving filter). -/
def pruneNodes (elapsed : ℚ) (s : St) : St :=
  { s with nodes :=
      s.nodes.filter fun n => !decide (elapsed - n.birthTime > n.lifetime) }

/-- The `// Remove dead / orphaned connections` pass of `render()`, run
after the node prune. -/
def pruneConns (elapsed : ℚ) (s : St) : St :=
  { s with connections :=
      s.connections.filter fun c =>
        !decide (elapsed - c.birthTime > c.lifetime)
          && hasNode s.nodes c.idA && hasNode s.nodes c.idB }

/-- One `render()` frame with reduced-motion flag `rm`: color smoothing,
gated spawns, node prune, then connection prune (drawing is pure). -/
def frameStep (rm : Bool) (f : FrameIn) (s : St) : St :=
  pruneConns f.elapsed
    (pruneNodes f.elapsed (frameSpawnConn rm f (frameSpawnNode rm f (frameColor f s))))

/-! Render-side per-connection alpha (the `// Draw connections` loop body). -/

/-- A `posMap` entry (`{ px, py, opacity, r }`). -/
structure PosEntry where
  px : ℚ
  py : ℚ
  opacity : ℚ
  r : ℚ
deriving DecidableEq, Repr

/-- The `posMap[n.id] = ...` value computed once per frame per node. -/
def posEntry (n : Node) (elapsed w h : ℚ) : PosEntry :=
  { px := (nodePos n elapsed w h).1,
    py := (nodePos n elapsed w h).2,
    opacity := lifecycleOpacity (elapsed - n.birthTime) n.lifetime,
    r := n.radius }

/-- `connOp = Math.min(fadeIn, nodeGate)` from the connection-draw loop. -/
def connOp (elapsed : ℚ) (conn : Conn) (pa pb : PosEntry) : ℚ :=
  let connAge := elapsed - conn.birthTime
  let fadeIn := clamp (connAge / CONN_FADE_IN) 0 1
  let nodeGate := min pa.opacity pb.opacity
  min fadeIn nodeGate

/-- `lineAlpha = distFade * connOp * MAX_LINE_ALPHA` from the
connection-draw loop (`refPx = DIST_REF * Math.sqrt(w*w + h*h)`). -/
def lineAlpha (rexp rsqrt : ℚ → ℚ) (w h elapsed : ℚ) (conn : Conn)
    (pa pb : PosEntry) : ℚ :=
  let refPx := DIST_REF * rsqrt (w * w + h * h)
  let ldx := pa.px - pb.px
  let ldy := pa.py - pb.py
  let ldist := rsqrt (ldx * ldx + ldy * ldy)
  let distFade := rexp (-(ldist / refPx))
  distFade * connOp elapsed conn pa pb * MAX_LINE_ALPHA

/-- Whether the connection is actually stroked this frame: both guards
`if (connOp <= 0) continue` and `if (lineAlpha < 0.003) continue` pass. -/
def connDrawn (rexp rsqrt : ℚ → ℚ) (w h elapsed : ℚ) (conn : Conn)
    (pa pb : PosEntry) : Prop :=
  0 < connOp elapsed conn pa pb ∧
    ¬(lineAlpha rexp rsqrt w h elapsed conn pa pb < 3/1000)

/-- The spec's stated alpha: the PRODUCT of the fade-in ramp, the minimum
endpoint opacity, the distance falloff, and the global cap.  Written from
the spec sentence, to be compared against `lineAlpha`. -/
def lineAlphaSpec (rexp rsqrt : ℚ → ℚ) (w h elapsed : ℚ) (conn : Conn)
    (pa pb : PosEntry) : ℚ :=
  let refPx := DIST_REF * rsqrt (w * w + h * h)
  let ldx := pa.px - pb.px
  let ldy := pa.py - pb.py
  let ldist := rsqrt (ldx * ldx + ldy * ldy)
  let distFade := rexp (-(ldist / refPx))
  let connAge := elapsed - conn.birthTime
  let fadeIn := clamp (connAge / CONN_FADE_IN) 0 1
  fadeIn * min pa.opacity pb.opacity * distFade * MAX_LINE_ALPHA

/-! A JS-number model with `NaN`, for the `getTargetColor(NaN)` edge case.
Only the operations `getTargetColor` actually performs on the score are
modelled: `Math.min`, `Math.max` (which return `NaN` if any argument is
`NaN`) and the comparisons `>=`, `<=` (false whenever an operand is
`NaN`). -/

/-- A JS number that may be `NaN`. -/
inductive JNum where
  | nan : JNum
  | num : ℚ → JNum
deriving DecidableEq, Repr

/-- `Math.min` on JS numbers. -/
def jmin : JNum → JNum → JNum
  | JNum.num a, JNum.num b => JNum.num (min a b)
  | _, _ => JNum.nan

/-- `Math.max` on JS numbers. -/
def jmax : JNum → JNum → JNum
  | JNum.num a, JNum.num b => JNum.num (max a b)
  | _, _ => JNum.nan

/-- JS `x >= y` (false when either operand is `NaN`). -/
def jge : JNum → JNum → Bool
  | JNum.num a, JNum.num b => a ≥ b
  | _, _ => false

/-- JS `x <= y` (false when either operand is `NaN`). -/
def jle : JNum → JNum → Bool
  | JNum.num a, JNum.num b => a ≤ b
  | _, _ => false

/-- `clamp` on JS numbers: `Math.max(lo, Math.min(hi, v))`. -/
def clampJ (v lo hi : JNum) : JNum := jmax lo (jmin hi v)

/-- The `getTargetColor` stop scan on a possibly-`NaN` clamped score.  The
interpolation arithmetic only runs under the bracket test, which is false
for `NaN`, so the `nan` sub-case of the taken branch is unreachable. -/
def stopScanJ : List Stop → JNum → RGB
  | a :: b :: rest, s =>
      if jge s (JNum.num a.score) && jle s (JNum.num b.score) then
        match s with
        | JNum.num q => lerpStops a b q
        | JNum.nan => COLOR_NEUTRAL
      else stopScanJ (b :: rest) s
  | [a], _ => a.color
  | [], _ => COLOR_NEUTRAL

/-- `getTargetColor` over JS numbers (`none` models `null`/`undefined`). -/
def getTargetColorJS : Option JNum → RGB
  | none => COLOR_NEUTRAL
  | some score => stopScanJ COLOR_STOPS (clampJ score (JNum.num 0) (JNum.num 100))

/-! Lifecycle envelope lemmas. -/

lemma lifecycleOpacity_eq (age L : ℚ) : lifecycleOpacity age L =
    if age / L < 0 ∨ age / L > 1 then 0
    else if age / L < 1/10 then (age / L) / (1/10)
    else if age / L < 6/10 then 1
    else 1 - (age / L - 6/10) / (4/10) := rfl

lemma lifecycleOpacity_ramp (age L : ℚ) (h0 : 0 ≤ age / L) (h1 : age / L ≤ 1/10) :
    lifecycleOpacity age L = 10 * (age / L) := by
  rw [lifecycleOpacity_eq]
  rw [if_neg (by push_neg; constructor <;> linarith)]
  by_cases h : age / L < 1/10
  · rw [if_pos h]; ring
  · have he : age / L = 1/10 := le_antisymm h1 (not_lt.mp h)
    rw [if_neg h, if_pos (by rw [he]; norm_num), he]
    norm_num

lemma lifecycleOpacity_fall (age L : ℚ) (h0 : 6/10 ≤ age / L) (h1 : age / L ≤ 1) :
    lifecycleOpacity age L = 1 - (age / L - 6/10) * (5/2) := by
  rw [lifecycleOpacity_eq]
  rw [if_neg (by push_neg; constructor <;> linarith),
    if_neg (not_lt.mpr (by linarith)), if_neg (not_lt.mpr h0)]
  ring

/-- Claim C3: `lifecycleOpacity(age, lifetime)` stays in `[0,1]`, is `0`
outside `t = age/lifetime ∈ [0,1]`, follows the ramp `t/0.10` on
`[0, 0.10)`, holds `1` on `[0.10, 0.60)`, falls as `1 - (t-0.60)/0.40` on
`[0.60, 1]` reaching `0` at `age = lifetime`, is non-decreasing on
`[0, 0.10·lifetime]` and non-increasing on `[0.60·lifetime, lifetime]`. -/
theorem c3_lifecycleOpacity_envelope (age L : ℚ) (hL : 0 < L) :
    (0 ≤ lifecycleOpacity age L ∧ lifecycleOpacity age L ≤ 1)
    ∧ (age / L < 0 ∨ age / L > 1 → lifecycleOpacity age L = 0)
    ∧ (0 ≤ age / L → age / L < 1/10 → lifecycleOpacity age L = (age / L) / (1/10))
    ∧ (1/10 ≤ age / L → age / L < 6/10 → lifecycleOpacity age L = 1)
    ∧ (6/10 ≤ age / L → age / L ≤ 1 →
        lifecycleOpacity age L = 1 - (age / L - 6/10) / (4/10))
    ∧ lifecycleOpacity L L = 0
    ∧ (∀ a1 a2 : ℚ, 0 ≤ a1 → a1 ≤ a2 → a2 ≤ 1/10 * L →
        lifecycleOpacity a1 L ≤ lifecycleOpacity a2 L)
    ∧ (∀ a1 a2 : ℚ, 6/10 * L ≤ a1 → a1 ≤ a2 → a2 ≤ L →
        lifecycleOpacity a2 L ≤ lifecycleOpacity a1 L) := by
  refine ⟨?_, ?_, ?_, ?_, ?_, ?_, ?_, ?_⟩
  · rw [lifecycleOpacity_eq]
    have h10 : age / L / (1/10) = 10 * (age / L) := by ring
    split_ifs with h1 h2 h3
    · exact ⟨le_refl 0, by norm_num⟩
    · push_neg at h1
      rw [h10]
      constructor <;> linarith [h1.1, h1.2]
    · norm_num
    · push_neg at h1
      push_neg at h3
      have e : 1 - (age / L - 6/10) / (4/10) = 1 - (age / L - 6/10) * (5/2) := by ring
      rw [e]
      constructor <;> linarith [h1.2, h3]
  · intro h
    rw [lifecycleOpacity_eq, if_pos h]
  · intro h0 h1
    rw [lifecycleOpacity_eq,
      if_neg (by push_neg; constructor <;> linarith), if_pos h1]
  · intro h0 h1
    rw [lifecycleOpacity_eq,
      if_neg (by push_neg; constructor <;> linarith),
      if_neg (not_lt.mpr h0), if_pos h1]
  · intro h0 h1
    have e : 1 - (age / L - 6/10) / (4/10) = 1 - (age / L - 6/10) * (5/2) := by ring
    rw [lifecycleOpacity_fall age L h0 h1, e]
  · have he : L / L = 1 := div_self hL.ne'
    rw [lifecycleOpacity_fall L L (by rw [he]; norm_num) (by rw [he]), he]
    norm_num
  · intro a1 a2 h0 h12 h2
    have ht1 : 0 ≤ a1 / L := div_nonneg h0 hL.le
    have ht12 : a1 / L ≤ a2 / L := by gcongr
    have ht2 : a2 / L ≤ 1/10 := by rw [div_le_iff₀ hL]; linarith
    rw [lifecycleOpacity_ramp a1 L ht1 (le_trans ht12 ht2),
      lifecycleOpacity_ramp a2 L (le_trans ht1 ht12) ht2]
    linarith
  · intro a1 a2 h0 h12 h2
    have ht1 : 6/10 ≤ a1 / L := by rw [le_div_iff₀ hL]; linarith
    have ht12 : a1 / L ≤ a2 / L := by gcongr
    have ht2 : a2 / L ≤ 1 := by rw [div_le_one hL]; linarith
    rw [lifecycleOpacity_fall a1 L ht1 (le_trans ht12 ht2),
      lifecycleOpacity_fall a2 L (le_trans ht1 ht12) ht2]
    linarith

/-- Witness for C3 at `age = 1/2`, `lifetime = 10` (ramp region). -/
theorem c3_lifecycleOpacity_envelope_witness :
    (0 : ℚ) < 10 ∧ lifecycleOpacity (1/2) 10 = ((1/2 : ℚ) / 10) / (1/10) :=
  ⟨by norm_num,
    (c3_lifecycleOpacity_envelope (1/2) 10 (by norm_num)).2.2.1 (by norm_num) (by norm_num)⟩

/-! Color model: `getTargetColor` against the spec's piecewise-linear path. -/

/-- The spec's description of the target color: the piecewise-linear path
through the stop table in score order (one branch per consecutive stop
pair).  Written from the spec's words, for comparison with the source's
`getTargetColor`. -/
def targetColorPath (s : ℚ) : RGB :=
  if s ≤ 25 then lerpStops ⟨0, ⟨58, 138, 92⟩⟩ ⟨25, ⟨58, 138, 92⟩⟩ s
  else if s ≤ 40 then lerpStops ⟨25, ⟨58, 138, 92⟩⟩ ⟨40, ⟨138, 138, 58⟩⟩ s
  else if s ≤ 60 then lerpStops ⟨40, ⟨138, 138, 58⟩⟩ ⟨60, ⟨196, 154, 58⟩⟩ s
  else if s ≤ 75 then lerpStops ⟨60, ⟨196, 154, 58⟩⟩ ⟨75, ⟨196, 100, 42⟩⟩ s
  else lerpStops ⟨75, ⟨196, 100, 42⟩⟩ ⟨100, ⟨184, 58, 42⟩⟩ s

lemma stopScan_eq_path (q : ℚ) (h0 : 0 ≤ q) (h100 : q ≤ 100) :
    stopScan COLOR_STOPS q = targetColorPath q := by
  rw [COLOR_STOPS, targetColorPath]
  simp only [stopScan]
  by_cases h25 : q ≤ 25
  · rw [if_pos (show (0:ℚ) ≤ q ∧ q ≤ 25 from ⟨h0, h25⟩), if_pos h25]
  · rw [if_neg (by push_neg; intro _; linarith), if_neg h25]
    by_cases h40 : q ≤ 40
    · rw [if_pos (show (25:ℚ) ≤ q ∧ q ≤ 40 from ⟨by linarith, h40⟩), if_pos h40]
    · rw [if_neg (by push_neg; intro _; linarith), if_neg h40]
      by_cases h60 : q ≤ 60
      · rw [if_pos (show (40:ℚ) ≤ q ∧ q ≤ 60 from ⟨by linarith, h60⟩), if_pos h60]
      · rw [if_neg (by push_neg; intro _; linarith), if_neg h60]
        by_cases h75 : q ≤ 75
        · rw [if_pos (show (60:ℚ) ≤ q ∧ q ≤ 75 from ⟨by linarith, h75⟩), if_pos h75]
        · rw [if_neg (by push_neg; intro _; linarith), if_neg h75]
          rw [if_pos (show (75:ℚ) ≤ q ∧ q ≤ 100 from ⟨by linarith, h100⟩)]

lemma stopScan_bracket (q : ℚ) (i : ℕ) (a b : Stop)
    (ha : COLOR_STOPS.get? i = some a) (hb : COLOR_STOPS.get? (i+1) = some b)
    (h1 : a.score ≤ q) (h2 : q ≤ b.score) :
    stopScan COLOR_STOPS q = lerpStops a b q := by
  have hlen : i + 1 < 6 := by
    by_contra hcon
    push_neg at hcon
    have : COLOR_STOPS.get? (i+1) = none := by
      apply List.get?_eq_none.mpr
      simpa [COLOR_STOPS] using hcon
    rw [this] at hb
    exact Option.noConfusion hb
  have hi : i < 5 := by omega
  interval_cases i <;>
    simp only [COLOR_STOPS, List.get?] at ha hb <;>
    injection ha with ha <;> injection hb with hb <;> subst ha <;> subst hb <;>
    simp only [COLOR_STOPS, stopScan] <;>
    simp only at h1 h2
  · rw [if_pos ⟨h1, h2⟩]
  · by_cases h : q ≤ 25
    · have hq : q = 25 := le_antisymm h h1
      subst hq
      rw [if_pos (by norm_num)]
      norm_num [lerpStops]
    · rw [if_neg (by push_neg; intro _; linarith), if_pos ⟨h1, h2⟩]
  · by_cases h : q ≤ 40
    · have hq : q = 40 := le_antisymm h h1
      subst hq
      rw [if_neg (by norm_num), if_pos (by norm_num)]
      norm_num [lerpStops]
    · rw [if_neg (by push_neg; intro _; linarith),
        if_neg (by push_neg; intro _; linarith), if_pos ⟨h1, h2⟩]
  · by_cases h : q ≤ 60
    · have hq : q = 60 := le_antisymm h h1
      subst hq
      rw [if_neg (by norm_num), if_neg (by norm_num), if_pos (by norm_num)]
      norm_num [lerpStops]
    · rw [if_neg (by push_neg; intro _; linarith),
        if_neg (by push_neg; intro _; linarith),
        if_neg (by push_neg; intro _; linarith), if_pos ⟨h1, h2⟩]
  · by_cases h : q ≤ 75
    · have hq : q = 75 := le_antisymm h h1
      subst hq
      rw [if_neg (by norm_num), if_neg (by norm_num), if_neg (by norm_num),
        if_pos (by norm_num)]
      norm_num [lerpStops]
    · rw [if_neg (by push_neg; intro _; linarith),
        if_neg (by push_neg; intro _; linarith),
        if_neg (by push_neg; intro _; linarith),
        if_neg (by push_neg; intro _; linarith), if_pos ⟨h1, h2⟩]

/-- Claim C2: `getTargetColor` returns the neutral gray on `null`/
`undefined`; for numeric scores it clamps to `[0,100]` and interpolates the
bracketing consecutive stops channel-wise; `getTargetColor 0 =
getTargetColor 25`; and on `[0,100]` the result lies on the piecewise-linear
path through the stops in score order. -/
theorem c2_getTargetColor_piecewise :
    getTargetColor none = COLOR_NEUTRAL
    ∧ getTargetColor (some 0) = getTargetColor (some 25)
    ∧ (∀ (s : ℚ) (i : ℕ) (a b : Stop),
        COLOR_STOPS.get? i = some a → COLOR_STOPS.get? (i+1) = some b →
        a.score ≤ clamp s 0 100 → clamp s 0 100 ≤ b.score →
        getTargetColor (some s) = lerpStops a b (clamp s 0 100))
    ∧ (∀ s : ℚ, getTargetColor (some s) = targetColorPath (clamp s 0 100))
    ∧ (∀ s : ℚ, 0 ≤ s → s ≤ 100 → getTargetColor (some s) = targetColorPath s) := by
  refine ⟨rfl, by norm_num [getTargetColor, stopScan, COLOR_STOPS, clamp, lerpStops],
    ?_, ?_, ?_⟩
  · intro s i a b ha hb h1 h2
    exact stopScan_bracket (clamp s 0 100) i a b ha hb h1 h2
  · intro s
    exact stopScan_eq_path (clamp s 0 100) (le_max_left 0 _)
      (max_le (by norm_num) (min_le_left _ _))
  · intro s h0 h100
    have hc : clamp s 0 100 = s := by
      rw [clamp, min_eq_right h100, max_eq_right h0]
    show stopScan COLOR_STOPS (clamp s 0 100) = targetColorPath s
    rw [hc]
    exact stopScan_eq_path s h0 h100

/-- Witness for C2 at score 30. -/
theorem c2_getTargetColor_piecewise_witness :
    (0 : ℚ) ≤ 30 ∧ getTargetColor (some 30) = targetColorPath 30 :=
  ⟨by norm_num,
    c2_getTargetColor_piecewise.2.2.2.2 30 (by norm_num) (by norm_num)⟩

/-- Claim C9: a `NaN` score (neither `null` nor `undefined`) falls through
every bracket comparison of `getTargetColor` (the clamp propagates `NaN`
and `NaN` comparisons are false) and yields the last stop's color
`[184, 58, 42]`, not the neutral gray. -/
theorem c9_getTargetColor_nan :
    getTargetColorJS (some JNum.nan) = ⟨184, 58, 42⟩
    ∧ clampJ JNum.nan (JNum.num 0) (JNum.num 100) = JNum.nan
    ∧ getTargetColorJS (some JNum.nan) ≠ COLOR_NEUTRAL := by
  refine ⟨rfl, rfl,
    by simp [getTargetColorJS, stopScanJ, clampJ, jmax, jmin, jge, jle,
      COLOR_STOPS, COLOR_NEUTRAL]⟩

/-! Color smoothing: iterating `lerpRGB(currentColor, targetColor, 0.025)`
one call per frame, as the render loop does. -/

/-- `N` frames of the per-frame smoothing step with a constant target. -/
def lerpIter (target : RGB) (speed : ℚ) : ℕ → RGB → RGB
  | 0, c => c
  | n + 1, c => lerpIter target speed n (lerpRGB c target speed)

lemma lerpRGB_offset (c t : RGB) (q : ℚ) :
    t.r - (lerpRGB c t q).r = (1 - q) * (t.r - c.r)
    ∧ t.g - (lerpRGB c t q).g = (1 - q) * (t.g - c.g)
    ∧ t.b - (lerpRGB c t q).b = (1 - q) * (t.b - c.b) := by
  refine ⟨?_, ?_, ?_⟩ <;> (simp only [lerpRGB]; ring)

lemma lerpIter_offset (t : RGB) (q : ℚ) : ∀ (N : ℕ) (c : RGB),
    t.r - (lerpIter t q N c).r = (1 - q) ^ N * (t.r - c.r)
    ∧ t.g - (lerpIter t q N c).g = (1 - q) ^ N * (t.g - c.g)
    ∧ t.b - (lerpIter t q N c).b = (1 - q) ^ N * (t.b - c.b) := by
  intro N
  induction N with
  | zero => intro c; simp [lerpIter]
  | succ n ih =>
      intro c
      have h := ih (lerpRGB c t q)
      have hs := lerpRGB_offset c t q
      refine ⟨?_, ?_, ?_⟩
      · rw [show lerpIter t q (n+1) c = lerpIter t q n (lerpRGB c t q) from rfl,
          h.1, hs.1]
        ring
      · rw [show lerpIter t q (n+1) c = lerpIter t q n (lerpRGB c t q) from rfl,
          h.2.1, hs.2.1]
        ring
      · rw [show lerpIter t q (n+1) c = lerpIter t q n (lerpRGB c t q) from rfl,
          h.2.2, hs.2.2]
        ring

lemma ratePow_lt_one_94 : ((1:ℚ) - 25/1000) ^ 180 * 94 < 1 := by
  have h : ((1:ℚ) - 25/1000) = 39/40 := by norm_num
  rw [h, div_pow, div_mul_eq_mul_div, div_lt_one (by positivity)]
  norm_num

lemma ratePow_lt_one_138 : ((1:ℚ) - 25/1000) ^ 195 * 138 < 1 := by
  have h : ((1:ℚ) - 25/1000) = 39/40 := by norm_num
  rw [h, div_pow, div_mul_eq_mul_div, div_lt_one (by positivity)]
  norm_num

lemma lerpIter_close (N : ℕ) (bound : ℚ)
    (hN : ((1:ℚ) - 25/1000) ^ N * bound < 1)
    (c t : RGB) (h1 : |t.r - c.r| ≤ bound) (h2 : |t.g - c.g| ≤ bound)
    (h3 : |t.b - c.b| ≤ bound) :
    |t.r - (lerpIter t (25/1000) N c).r| < 1
    ∧ |t.g - (lerpIter t (25/1000) N c).g| < 1
    ∧ |t.b - (lerpIter t (25/1000) N c).b| < 1 := by
  have hoff := lerpIter_offset t (25/1000) N c
  have hpow : (0:ℚ) < ((1:ℚ) - 25/1000) ^ N := by positivity
  refine ⟨?_, ?_, ?_⟩
  · rw [hoff.1, abs_mul, abs_of_pos hpow]
    calc ((1:ℚ) - 25/1000) ^ N * |t.r - c.r|
        ≤ ((1:ℚ) - 25/1000) ^ N * bound := by
          exact mul_le_mul_of_nonneg_left h1 hpow.le
      _ < 1 := hN
  · rw [hoff.2.1, abs_mul, abs_of_pos hpow]
    calc ((1:ℚ) - 25/1000) ^ N * |t.g - c.g|
        ≤ ((1:ℚ) - 25/1000) ^ N * bound := by
          exact mul_le_mul_of_nonneg_left h2 hpow.le
      _ < 1 := hN
  · rw [hoff.2.2, abs_mul, abs_of_pos hpow]
    calc ((1:ℚ) - 25/1000) ^ N * |t.b - c.b|
        ≤ ((1:ℚ) - 25/1000) ^ N * bound := by
          exact mul_le_mul_of_nonneg_left h3 hpow.le
      _ < 1 := hN

/-- Claim C6: iterating `lerpRGB(current, target, 0.025)` with a constant
target leaves, after `N` steps, exactly `(1 - 0.025)^N` of the initial
per-channel offset; a single step never increases the per-channel distance
and never overshoots (the offset keeps its sign); the current color is
within 1 unit of the target after 180 frames for initial per-channel
offsets up to 94, and after 195 frames for offsets up to 138 (the widest
channel spread of the palette). -/
theorem c6_lerpRGB_smoothing :
    (∀ (c t : RGB) (N : ℕ),
      t.r - (lerpIter t (25/1000) N c).r = (1 - 25/1000) ^ N * (t.r - c.r)
      ∧ t.g - (lerpIter t (25/1000) N c).g = (1 - 25/1000) ^ N * (t.g - c.g)
      ∧ t.b - (lerpIter t (25/1000) N c).b = (1 - 25/1000) ^ N * (t.b - c.b))
    ∧ (∀ c t : RGB,
      |t.r - (lerpRGB c t (25/1000)).r| ≤ |t.r - c.r|
      ∧ |t.g - (lerpRGB c t (25/1000)).g| ≤ |t.g - c.g|
      ∧ |t.b - (lerpRGB c t (25/1000)).b| ≤ |t.b - c.b|)
    ∧ (∀ c t : RGB,
      0 ≤ (t.r - (lerpRGB c t (25/1000)).r) * (t.r - c.r)
      ∧ 0 ≤ (t.g - (lerpRGB c t (25/1000)).g) * (t.g - c.g)
      ∧ 0 ≤ (t.b - (lerpRGB c t (25/1000)).b) * (t.b - c.b))
    ∧ (∀ c t : RGB, |t.r - c.r| ≤ 94 → |t.g - c.g| ≤ 94 → |t.b - c.b| ≤ 94 →
      |t.r - (lerpIter t (25/1000) 180 c).r| < 1
      ∧ |t.g - (lerpIter t (25/1000) 180 c).g| < 1
      ∧ |t.b - (lerpIter t (25/1000) 180 c).b| < 1)
    ∧ (∀ c t : RGB, |t.r - c.r| ≤ 138 → |t.g - c.g| ≤ 138 → |t.b - c.b| ≤ 138 →
      |t.r - (lerpIter t (25/1000) 195 c).r| < 1
      ∧ |t.g - (lerpIter t (25/1000) 195 c).g| < 1
      ∧ |t.b - (lerpIter t (25/1000) 195 c).b| < 1) := by
  refine ⟨fun c t N => lerpIter_offset t (25/1000) N c, ?_, ?_, ?_, ?_⟩
  · intro c t
    have hs := lerpRGB_offset c t (25/1000)
    have habs : |(1:ℚ) - 25/1000| = 1 - 25/1000 := abs_of_nonneg (by norm_num)
    refine ⟨?_, ?_, ?_⟩
    · rw [hs.1, abs_mul, habs]
      linarith [abs_nonneg (t.r - c.r)]
    · rw [hs.2.1, abs_mul, habs]
      linarith [abs_nonneg (t.g - c.g)]
    · rw [hs.2.2, abs_mul, habs]
      linarith [abs_nonneg (t.b - c.b)]
  · intro c t
    have hs := lerpRGB_offset c t (25/1000)
    refine ⟨?_, ?_, ?_⟩
    · rw [hs.1]
      nlinarith [sq_nonneg (t.r - c.r)]
    · rw [hs.2.1]
      nlinarith [sq_nonneg (t.g - c.g)]
    · rw [hs.2.2]
      nlinarith [sq_nonneg (t.b - c.b)]
  · intro c t h1 h2 h3
    exact lerpIter_close 180 94 ratePow_lt_one_94 c t h1 h2 h3
  · intro c t h1 h2 h3
    exact lerpIter_close 195 138 ratePow_lt_one_138 c t h1 h2 h3

/-- Witness for C6: starting from the neutral color with the first stop's
color as target, all three channels are within 1 unit after 180 frames. -/
theorem c6_lerpRGB_smoothing_witness :
    |(⟨58, 138, 92⟩ : RGB).r - COLOR_NEUTRAL.r| ≤ 94
    ∧ |(⟨58, 138, 92⟩ : RGB).r
        - (lerpIter ⟨58, 138, 92⟩ (25/1000) 180 COLOR_NEUTRAL).r| < 1 :=
  ⟨by rw [show ((⟨58, 138, 92⟩ : RGB)).r - COLOR_NEUTRAL.r = -2 by norm_num [COLOR_NEUTRAL]]
      rw [abs_neg]
      norm_num,
   (c6_lerpRGB_smoothing.2.2.2.1 COLOR_NEUTRAL ⟨58, 138, 92⟩
      (by rw [show ((⟨58, 138, 92⟩ : RGB)).r - COLOR_NEUTRAL.r = -2 by norm_num [COLOR_NEUTRAL]]
          rw [abs_neg]; norm_num)
      (by rw [show ((⟨58, 138, 92⟩ : RGB)).g - COLOR_NEUTRAL.g = 76 by norm_num [COLOR_NEUTRAL]]
          norm_num)
      (by rw [show ((⟨58, 138, 92⟩ : RGB)).b - COLOR_NEUTRAL.b = 22 by norm_num [COLOR_NEUTRAL]]
          norm_num)).1⟩

/-! Spawner: `spawnNode` silent no-op behavior. -/

lemma spawnNodeGo_nodes_reject (time : ℚ) (gen : ℕ → CRand) : ∀ (fuel k : ℕ) (s : St),
    (∀ j, j < fuel → isTooClose s.nodes (gen (k + j)).ux (gen (k + j)).uy time = true) →
    (spawnNodeGo time gen k fuel s).nodes = s.nodes := by
  intro fuel
  induction fuel with
  | zero => intro k s _; rfl
  | succ m ih =>
      intro k s h
      have h0 : isTooClose s.nodes (gen k).ux (gen k).uy time = true := by
        simpa using h 0 (Nat.succ_pos m)
      simp only [spawnNodeGo]
      rw [show (createNode time (gen k) s.nextId).x = (gen k).ux from rfl,
        show (createNode time (gen k) s.nextId).y = (gen k).uy from rfl, if_pos h0]
      exact ih (k + 1) { s with nextId := s.nextId + 1 } fun j hj => by
        have := h (j + 1) (by omega)
        rwa [show k + (j + 1) = k + 1 + j by omega] at this

lemma spawnNodeGo_nodes_succeed (time : ℚ) (gen : ℕ → CRand) : ∀ (fuel k : ℕ) (s : St),
    (∃ j, j < fuel ∧ isTooClose s.nodes (gen (k + j)).ux (gen (k + j)).uy time = false) →
    ∃ n, (spawnNodeGo time gen k fuel s).nodes = s.nodes ++ [n] := by
  intro fuel
  induction fuel with
  | zero => intro k s h; exact absurd h.choose_spec.1 (by omega)
  | succ m ih =>
      intro k s h
      simp only [spawnNodeGo]
      rw [show (createNode time (gen k) s.nextId).x = (gen k).ux from rfl,
        show (createNode time (gen k) s.nextId).y = (gen k).uy from rfl]
      by_cases h0 : isTooClose s.nodes (gen k).ux (gen k).uy time = true
      · rw [if_pos h0]
        apply ih (k + 1) { s with nextId := s.nextId + 1 }
        obtain ⟨j, hj, hf⟩ := h
        rcases Nat.eq_zero_or_pos j with rfl | hpos
        · simp only [Nat.add_zero] at hf
          rw [h0] at hf
          exact absurd hf (by simp)
        · obtain ⟨j1, rfl⟩ : ∃ j1, j = j1 + 1 := ⟨j - 1, by omega⟩
          refine ⟨j1, by omega, ?_⟩
          rwa [show k + 1 + j1 = k + (j1 + 1) by omega]
      · rw [if_neg h0]
        exact ⟨createNode time (gen k) s.nextId, rfl⟩

/-- Claim C8: `spawnNode(time)` leaves the node pool (and the derived
node-id map) unchanged when the pool already holds `MAX_NODES = 65` nodes,
and when each of its at most 8 candidates is rejected by the
drift-adjusted minimum-distance test; otherwise it appends exactly one
node. -/
theorem c8_spawnNode_silent_noop :
    (∀ (gen : ℕ → CRand) (time : ℚ) (s : St),
       MAX_NODES ≤ s.nodes.length → spawnNode gen time s = s)
    ∧ (∀ (gen : ℕ → CRand) (time : ℚ) (s : St),
       (∀ k, k < 8 → isTooClose s.nodes (gen k).ux (gen k).uy time = true) →
       (spawnNode gen time s).nodes = s.nodes
       ∧ ∀ i, hasNode (spawnNode gen time s).nodes i = hasNode s.nodes i)
    ∧ (∀ (gen : ℕ → CRand) (time : ℚ) (s : St), s.nodes.length < MAX_NODES →
       (∃ k, k < 8 ∧ isTooClose s.nodes (gen k).ux (gen k).uy time = false) →
       ∃ n, (spawnNode gen time s).nodes = s.nodes ++ [n]) := by
  refine ⟨?_, ?_, ?_⟩
  · intro gen time s h
    rw [spawnNode, if_pos h]
  · intro gen time s h
    have hn : (spawnNode gen time s).nodes = s.nodes := by
      rw [spawnNode]
      by_cases hc : s.nodes.length ≥ MAX_NODES
      · rw [if_pos hc]
      · rw [if_neg hc]
        exact spawnNodeGo_nodes_reject time gen 8 0 s fun j hj => by
          simpa using h j hj
    exact ⟨hn, fun i => by rw [hn]⟩
  · intro gen time s hlen h
    rw [spawnNode, if_neg (not_le.mpr hlen)]
    apply spawnNodeGo_nodes_succeed time gen 8 0 s
    obtain ⟨k, hk, hf⟩ := h
    exact ⟨k, hk, by simpa using hf⟩

/-- A saturated pool: 65 copies of the placeholder node. -/
def s65 : St := { initSt with nodes := List.replicate 65 dNode }

/-- Witness for C8: spawning on a saturated pool is the identity. -/
theorem c8_spawnNode_silent_noop_witness :
    MAX_NODES ≤ s65.nodes.length ∧ spawnNode (fun _ => ⟨0, 0, 0, 0, 0, 0⟩) 0 s65 = s65 :=
  ⟨by simp [s65, initSt, MAX_NODES],
   c8_spawnNode_silent_noop.1 (fun _ => ⟨0, 0, 0, 0, 0, 0⟩) 0 s65
     (by simp [s65, initSt, MAX_NODES])⟩


lemma seedTry_spec (ds : ℕ → CRand) (st : ℚ) : ∀ (fuel k : ℕ) (s : St),
    (∃ n, (seedTry ds st k fuel s).1.nodes = s.nodes ++ [n] ∧ (seedTry ds st k fuel s).2 = true)
    ∨ ((seedTry ds st k fuel s).1.nodes = s.nodes ∧ (seedTry ds st k fuel s).2 = false) := by
  intro fuel
  induction fuel with
  | zero => intro k s; exact Or.inr ⟨rfl, rfl⟩
  | succ m ih =>
      intro k s
      simp only [seedTry]
      by_cases h : tooCloseStatic s.nodes (createNode st (ds k) s.nextId).x
          (createNode st (ds k) s.nextId).y = true
      · rw [if_pos h]
        exact ih (k + 1) { s with nextId := s.nextId + 1 }
      · rw [if_neg h]
        exact Or.inl ⟨createNode st (ds k) s.nextId, rfl, rfl⟩

lemma seedIter_nodes (d : SeedDraw) (s : St) :
    ∃ n, (seedIter d s).nodes = s.nodes ++ [n] := by
  rw [seedIter]
  rcases seedTry_spec d.cands (-(d.uStagger * NODE_LIFETIME_MAX * (1/2))) 10 0 s with
    ⟨n, hn, ht⟩ | ⟨hn, ht⟩
  · rw [ht]
    exact ⟨n, hn⟩
  · rw [ht]
    simp only [Bool.false_eq_true, if_false]
    exact ⟨createNode (-(d.uStagger * NODE_LIFETIME_MAX * (1/2))) (d.cands 10)
      (seedTry d.cands (-(d.uStagger * NODE_LIFETIME_MAX * (1/2))) 0 10 s).1.nextId,
      by rw [hn]⟩

lemma seedNodesGo_length (dr : ℕ → SeedDraw) : ∀ (k i : ℕ) (s : St),
    (seedNodesGo dr i k s).nodes.length = s.nodes.length + k := by
  intro k
  induction k with
  | zero => intro i s; rfl
  | succ m ih =>
      intro i s
      show (seedNodesGo dr (i+1) m (seedIter (dr i) s)).nodes.length = _
      rw [ih (i+1) (seedIter (dr i) s)]
      obtain ⟨n, hn⟩ := seedIter_nodes (dr i) s
      rw [hn]
      simp
      omega

lemma seedNodesGo_prefix (dr : ℕ → SeedDraw) : ∀ (k i : ℕ) (s : St),
    ∃ l, (seedNodesGo dr i k s).nodes = s.nodes ++ l := by
  intro k
  induction k with
  | zero => intro i s; exact ⟨[], by rw [List.append_nil]; rfl⟩
  | succ m ih =>
      intro i s
      obtain ⟨n, hn⟩ := seedIter_nodes (dr i) s
      obtain ⟨l, hl⟩ := ih (i+1) (seedIter (dr i) s)
      refine ⟨[n] ++ l, ?_⟩
      show (seedNodesGo dr (i+1) m (seedIter (dr i) s)).nodes = _
      rw [hl, hn, List.append_assoc]


def NodesFresh (s : St) : Prop :=
  (∀ n ∈ s.nodes, n.id < s.nextId) ∧ s.nodes.Pairwise fun a b => a.id ≠ b.id

lemma push_fresh (s : St) (t : ℚ) (u : CRand) (h : NodesFresh s) :
    NodesFresh { s with nextId := s.nextId + 1,
                        nodes := s.nodes ++ [createNode t u s.nextId] } := by
  obtain ⟨hb, hp⟩ := h
  constructor
  · intro n hn
    rcases List.mem_append.mp hn with hn | hn
    · exact Nat.lt_succ_of_lt (hb n hn)
    · rw [List.mem_singleton.mp hn]
      exact Nat.lt_succ_self _
  · rw [List.pairwise_append]
    refine ⟨hp, List.pairwise_singleton _ _, ?_⟩
    intro a ha b hb2
    rw [List.mem_singleton.mp hb2]
    exact Nat.ne_of_lt (hb a ha)

lemma bump_fresh (s : St) (h : NodesFresh s) :
    NodesFresh { s with nextId := s.nextId + 1 } :=
  ⟨fun n hn => Nat.lt_succ_of_lt (h.1 n hn), h.2⟩

lemma seedTry_fresh (ds : ℕ → CRand) (st : ℚ) : ∀ (fuel k : ℕ) (s : St),
    NodesFresh s → NodesFresh (seedTry ds st k fuel s).1 := by
  intro fuel
  induction fuel with
  | zero => intro k s h; exact h
  | succ m ih =>
      intro k s h
      simp only [seedTry]
      split
      · exact ih (k + 1) _ (bump_fresh s h)
      · exact push_fresh s st (ds k) h

lemma seedIter_fresh (d : SeedDraw) (s : St) (h : NodesFresh s) :
    NodesFresh (seedIter d s) := by
  rw [seedIter]
  have h1 := seedTry_fresh d.cands (-(d.uStagger * NODE_LIFETIME_MAX * (1/2))) 10 0 s h
  split
  · exact h1
  · exact push_fresh _ _ _ h1

lemma seedNodesGo_fresh (dr : ℕ → SeedDraw) : ∀ (k i : ℕ) (s : St),
    NodesFresh s → NodesFresh (seedNodesGo dr i k s) := by
  intro k
  induction k with
  | zero => intro i s h; exact h
  | succ m ih => intro i s h; exact ih (i + 1) _ (seedIter_fresh (dr i) s h)

def cHalf : CRand := ⟨1/2, 1/2, 1/2, 1/2, 1/2, 1/2⟩

def drHalf : ℕ → SeedDraw := fun _ => ⟨1/2, fun _ => cHalf⟩

lemma seedTry_half (st : ℚ) : ∀ (fuel k : ℕ) (s : St),
    (∀ n ∈ s.nodes, n.x = 1/2 ∧ n.y = 1/2) →
    ∀ n ∈ (seedTry (fun _ => cHalf) st k fuel s).1.nodes, n.x = 1/2 ∧ n.y = 1/2 := by
  intro fuel
  induction fuel with
  | zero => intro k s h; exact h
  | succ m ih =>
      intro k s h
      simp only [seedTry]
      split
      · exact ih (k + 1) _ h
      · intro n hn
        rcases List.mem_append.mp hn with hn | hn
        · exact h n hn
        · rw [List.mem_singleton.mp hn]
          exact ⟨rfl, rfl⟩

lemma seedIter_half (i : ℕ) (s : St) (h : ∀ n ∈ s.nodes, n.x = 1/2 ∧ n.y = 1/2) :
    ∀ n ∈ (seedIter (drHalf i) s).nodes, n.x = 1/2 ∧ n.y = 1/2 := by
  rw [seedIter]
  have h1 := seedTry_half (-((drHalf i).uStagger * NODE_LIFETIME_MAX * (1/2))) 10 0 s h
  split
  · exact h1
  · intro n hn
    rcases List.mem_append.mp hn with hn | hn
    · exact h1 n hn
    · rw [List.mem_singleton.mp hn]
      exact ⟨rfl, rfl⟩

lemma seedNodesGo_half : ∀ (k i : ℕ) (s : St),
    (∀ n ∈ s.nodes, n.x = 1/2 ∧ n.y = 1/2) →
    ∀ n ∈ (seedNodesGo drHalf i k s).nodes, n.x = 1/2 ∧ n.y = 1/2 := by
  intro k
  induction k with
  | zero => intro i s h; exact h
  | succ m ih => intro i s h; exact ih (i + 1) _ (seedIter_half i s h)

/-- Claim C10: `seedNodes` inserts exactly 40 nodes regardless of
collision outcomes (the fallback candidate is inserted even when all 10
placement attempts fail), so two seeded nodes can lie closer together
than `MIN_NODE_DIST` — witnessed by a draw stream that places every
candidate at the same position. -/
theorem c10_seedNodes_forty_with_collision :
    (∀ (dr : ℕ → SeedDraw) (s : St),
      (seedNodes dr s).nodes.length = s.nodes.length + 40)
    ∧ (∃ n1, n1 ∈ (seedNodes drHalf initSt).nodes
        ∧ ∃ n2, n2 ∈ (seedNodes drHalf initSt).nodes
        ∧ n1.id ≠ n2.id
        ∧ (n1.x - n2.x) * (n1.x - n2.x) + (n1.y - n2.y) * (n1.y - n2.y)
            < MIN_NODE_DIST * MIN_NODE_DIST) := by
  constructor
  · intro dr s
    exact seedNodesGo_length dr 40 0 s
  · have hlen : (seedNodes drHalf initSt).nodes.length = 40 :=
      seedNodesGo_length drHalf 40 0 initSt
    have hfresh : NodesFresh (seedNodes drHalf initSt) :=
      seedNodesGo_fresh drHalf 40 0 initSt ⟨fun n hn => absurd hn (List.not_mem_nil n), List.Pairwise.nil⟩
    have hhalf : ∀ n ∈ (seedNodes drHalf initSt).nodes, n.x = 1/2 ∧ n.y = 1/2 :=
      seedNodesGo_half 40 0 initSt (fun n hn => absurd hn (List.not_mem_nil n))
    rcases hL : (seedNodes drHalf initSt).nodes with _ | ⟨n1, t⟩
    · rw [hL] at hlen; simp at hlen
    rcases ht : t with _ | ⟨n2, rest⟩
    · rw [hL, ht] at hlen; simp at hlen
    have hm1 : n1 ∈ (seedNodes drHalf initSt).nodes := by
      rw [hL]; exact List.mem_cons_self _ _
    have hm2 : n2 ∈ (seedNodes drHalf initSt).nodes := by
      rw [hL, ht]; exact List.mem_cons_of_mem _ (List.mem_cons_self _ _)
    have hne : n1.id ≠ n2.id := by
      have hp := hfresh.2
      rw [hL, ht] at hp
      exact (List.pairwise_cons.mp hp).1 n2 (List.mem_cons_self _ _)
    obtain ⟨hx1, hy1⟩ := hhalf n1 hm1
    obtain ⟨hx2, hy2⟩ := hhalf n2 hm2
    refine ⟨n1, List.mem_cons_self _ _, n2,
      List.mem_cons_of_mem _ (List.mem_cons_self _ _), hne, ?_⟩
    rw [hx1, hy1, hx2, hy2]
    norm_num [MIN_NODE_DIST]


lemma lineAlpha_eq (rexp rsqrt : ℚ → ℚ) (w h elapsed : ℚ) (conn : Conn) (pa pb : PosEntry) :
    lineAlpha rexp rsqrt w h elapsed conn pa pb =
      rexp (-(rsqrt ((pa.px - pb.px) * (pa.px - pb.px) + (pa.py - pb.py) * (pa.py - pb.py))
          / (DIST_REF * rsqrt (w * w + h * h))))
        * min (clamp ((elapsed - conn.birthTime) / CONN_FADE_IN) 0 1)
            (min pa.opacity pb.opacity)
        * MAX_LINE_ALPHA := rfl

lemma lineAlphaSpec_eq (rexp rsqrt : ℚ → ℚ) (w h elapsed : ℚ) (conn : Conn) (pa pb : PosEntry) :
    lineAlphaSpec rexp rsqrt w h elapsed conn pa pb =
      clamp ((elapsed - conn.birthTime) / CONN_FADE_IN) 0 1
        * min pa.opacity pb.opacity
        * rexp (-(rsqrt ((pa.px - pb.px) * (pa.px - pb.px) + (pa.py - pb.py) * (pa.py - pb.py))
            / (DIST_REF * rsqrt (w * w + h * h))))
        * MAX_LINE_ALPHA := rfl

def sqrtStub : ℚ → ℚ := fun q => if q = 0 then 0 else 1414/10

def expStub : ℚ → ℚ := fun _ => 1

def naC1 : Node :=
  { id := 0, x := 1/2, y := 1/2, birthTime := 0, lifetime := 10, radius := 2,
    driftX := 0, driftY := 0 }

def nbC1 : Node :=
  { id := 1, x := 1/2, y := 1/2, birthTime := 0, lifetime := 10, radius := 2,
    driftX := 0, driftY := 0 }

def cC1 : Conn := { idA := 0, idB := 1, birthTime := 29/4, lifetime := 10 }

lemma paC1_eq : posEntry naC1 8 100 100 = ⟨50, 50, 1/2, 2⟩ := by
  rw [posEntry, lifecycleOpacity_eq]
  norm_num [nodePos, naC1, PosEntry.mk.injEq]

lemma pbC1_eq : posEntry nbC1 8 100 100 = ⟨50, 50, 1/2, 2⟩ := by
  rw [posEntry, lifecycleOpacity_eq]
  norm_num [nodePos, nbC1, PosEntry.mk.injEq]

/-- Counterexample for C1: a drawn connection (both guards pass) whose
line alpha under the code's formula is `0.19` while the claimed product
formula gives `0.095` — the code takes `min(fadeIn, min(opA,opB))`, not
the product `fadeIn * min(opA,opB)`.  The stub primitives agree with
`Math.sqrt`/`Math.exp` at the evaluated argument `0` (endpoints coincide,
so the distance is `0` and the falloff factor is `exp(0) = 1`). -/
theorem c1_lineAlpha_counterexample :
    connDrawn expStub sqrtStub 100 100 8 cC1 (posEntry naC1 8 100 100) (posEntry nbC1 8 100 100)
    ∧ lineAlpha expStub sqrtStub 100 100 8 cC1 (posEntry naC1 8 100 100) (posEntry nbC1 8 100 100)
        = 19/100
    ∧ lineAlphaSpec expStub sqrtStub 100 100 8 cC1 (posEntry naC1 8 100 100) (posEntry nbC1 8 100 100)
        = 19/200
    ∧ lineAlpha expStub sqrtStub 100 100 8 cC1 (posEntry naC1 8 100 100) (posEntry nbC1 8 100 100)
        ≠ lineAlphaSpec expStub sqrtStub 100 100 8 cC1
            (posEntry naC1 8 100 100) (posEntry nbC1 8 100 100) := by
  rw [paC1_eq, pbC1_eq]
  have hca : (8 : ℚ) - cC1.birthTime = 3/4 := by norm_num [cC1]
  have hclamp : clamp ((3/4 : ℚ) / CONN_FADE_IN) 0 1 = 1/2 := by
    norm_num [clamp, CONN_FADE_IN, min_def, max_def]
  have hsq : sqrtStub ((50 - 50) * (50 - 50) + (50 - 50) * (50 - 50) : ℚ) = 0 := by
    norm_num [sqrtStub]
  have hco : connOp 8 cC1 ⟨50, 50, 1/2, 2⟩ ⟨50, 50, 1/2, 2⟩ = 1/2 := by
    rw [connOp]
    norm_num [cC1, CONN_FADE_IN, clamp, min_def, max_def]
  have hla : lineAlpha expStub sqrtStub 100 100 8 cC1 ⟨50, 50, 1/2, 2⟩ ⟨50, 50, 1/2, 2⟩ = 19/100 := by
    rw [lineAlpha_eq]
    norm_num [cC1, CONN_FADE_IN, clamp, min_def, max_def, sqrtStub, expStub, MAX_LINE_ALPHA]
  have hls : lineAlphaSpec expStub sqrtStub 100 100 8 cC1 ⟨50, 50, 1/2, 2⟩ ⟨50, 50, 1/2, 2⟩ = 19/200 := by
    rw [lineAlphaSpec_eq]
    norm_num [cC1, CONN_FADE_IN, clamp, min_def, max_def, sqrtStub, expStub, MAX_LINE_ALPHA]
  refine ⟨⟨by rw [hco]; norm_num, by rw [hla]; norm_num⟩, hla, hls, by rw [hla, hls]; norm_num⟩

/-- The amended alpha formula, written from the corrected spec wording:
`lineAlpha = distFade * min(fadeIn, min(opA, opB)) * MAX_LINE_ALPHA`. -/
def lineAlphaMin (rexp rsqrt : ℚ → ℚ) (w h elapsed : ℚ) (conn : Conn)
    (pa pb : PosEntry) : ℚ :=
  let refPx := DIST_REF * rsqrt (w * w + h * h)
  let ldist := rsqrt ((pa.px - pb.px) * (pa.px - pb.px) + (pa.py - pb.py) * (pa.py - pb.py))
  let distFade := rexp (-(ldist / refPx))
  let fadeIn := clamp ((elapsed - conn.birthTime) / CONN_FADE_IN) 0 1
  distFade * min fadeIn (min pa.opacity pb.opacity) * MAX_LINE_ALPHA

/-- Claim C1 (amended): the drawn line alpha is
`distFade * min(fadeIn, min(opA, opB)) * MAX_LINE_ALPHA` — the minimum of
the fade-in ramp and the endpoint gate, not their product; the claimed
product formula does hold once the fade-in has completed (`fadeIn = 1`,
with lifecycle opacities `≤ 1`), and also when both endpoint opacities
are `1`. -/
theorem c1_lineAlpha_min_gate :
    (∀ (rexp rsqrt : ℚ → ℚ) (w h elapsed : ℚ) (conn : Conn) (pa pb : PosEntry),
      lineAlpha rexp rsqrt w h elapsed conn pa pb
        = lineAlphaMin rexp rsqrt w h elapsed conn pa pb)
    ∧ (∀ (rexp rsqrt : ℚ → ℚ) (w h elapsed : ℚ) (conn : Conn) (pa pb : PosEntry),
      clamp ((elapsed - conn.birthTime) / CONN_FADE_IN) 0 1 = 1 →
      pa.opacity ≤ 1 → pb.opacity ≤ 1 →
      lineAlpha rexp rsqrt w h elapsed conn pa pb
        = lineAlphaSpec rexp rsqrt w h elapsed conn pa pb)
    ∧ (∀ (rexp rsqrt : ℚ → ℚ) (w h elapsed : ℚ) (conn : Conn) (pa pb : PosEntry),
      min pa.opacity pb.opacity = 1 →
      lineAlpha rexp rsqrt w h elapsed conn pa pb
        = lineAlphaSpec rexp rsqrt w h elapsed conn pa pb) := by
  refine ⟨fun _ _ _ _ _ _ _ _ => rfl, ?_, ?_⟩
  · intro rexp rsqrt w h elapsed conn pa pb hf ha hb
    rw [lineAlpha_eq, lineAlphaSpec_eq, hf,
      min_eq_right ((min_le_left pa.opacity pb.opacity).trans ha)]
    ring
  · intro rexp rsqrt w h elapsed conn pa pb hg
    have hcl : clamp ((elapsed - conn.birthTime) / CONN_FADE_IN) 0 1 ≤ 1 := by
      rw [clamp]
      exact max_le zero_le_one (min_le_left _ _)
    rw [lineAlpha_eq, lineAlphaSpec_eq, hg, min_eq_left hcl]
    ring

/-- Witness for the amended C1 at a completed fade-in. -/
theorem c1_lineAlpha_min_gate_witness :
    clamp (((2 : ℚ) - (⟨0, 1, 0, 10⟩ : Conn).birthTime) / CONN_FADE_IN) 0 1 = 1
    ∧ lineAlpha expStub sqrtStub 100 100 2 ⟨0, 1, 0, 10⟩ ⟨0, 0, 1, 1⟩ ⟨0, 0, 1, 1⟩
        = lineAlphaSpec expStub sqrtStub 100 100 2 ⟨0, 1, 0, 10⟩ ⟨0, 0, 1, 1⟩ ⟨0, 0, 1, 1⟩ :=
  ⟨by norm_num [clamp, CONN_FADE_IN, min_def, max_def],
   c1_lineAlpha_min_gate.2.1 expStub sqrtStub 100 100 2 ⟨0, 1, 0, 10⟩ ⟨0, 0, 1, 1⟩ ⟨0, 0, 1, 1⟩
     (by norm_num [clamp, CONN_FADE_IN, min_def, max_def]) (le_refl 1) (le_refl 1)⟩

/-! Helper lemmas for connection-spawn reasoning. -/

lemma randIdx_lt (u : ℚ) (len : ℕ) (h0 : 0 ≤ u) (h1 : u < 1) (hlen : 0 < len) :
    randIdx u len < len := by
  rw [randIdx]
  have hcast : (0:ℚ) < (len : ℚ) := by exact_mod_cast hlen
  have h2 : u * (len:ℚ) < (len:ℚ) := by nlinarith
  have hf : ⌊u * (len:ℚ)⌋ < (len : ℤ) := Int.floor_lt.mpr (by exact_mod_cast h2)
  have hnn : 0 ≤ ⌊u * (len:ℚ)⌋ := Int.floor_nonneg.mpr (by positivity)
  omega

lemma connA_mem (uA : ℚ) (s : St) (h0 : 0 ≤ uA) (h1 : uA < 1)
    (hlen : 0 < s.nodes.length) : connA uA s ∈ s.nodes := by
  rw [connA, List.getD_eq_getElem?_getD]
  have hlt := randIdx_lt uA s.nodes.length h0 h1 hlen
  rw [List.getElem?_eq_getElem hlt]
  exact List.getElem_mem _

lemma pickChosen_mem : ∀ (l : List (Node × ℚ)) (p : ℚ) (ch : Node),
    pickChosen l p ch = ch ∨ pickChosen l p ch ∈ l.map Prod.fst := by
  intro l
  induction l with
  | nil => intro p ch; exact Or.inl rfl
  | cons c rest ih =>
      intro p ch
      simp only [pickChosen]
      split
      · exact Or.inr (List.mem_map.mpr ⟨c, List.mem_cons_self _ _, rfl⟩)
      · rcases ih (p - c.2) ch with h | h
        · exact Or.inl h
        · refine Or.inr ?_
          rw [List.map_cons]
          exact List.mem_cons_of_mem _ h

lemma headD_fst_mem_map (l : List (Node × ℚ)) (d : Node × ℚ) (h : l ≠ []) :
    (l.headD d).1 ∈ l.map Prod.fst := by
  cases l with
  | nil => exact absurd rfl h
  | cons c rest =>
      rw [List.headD_cons, List.map_cons]
      exact List.mem_cons_self _ _

lemma connCandidates_mem (rexp rsqrt : ℚ → ℚ) (refPx ax ay elapsed w h : ℚ)
    (aIdx aId : ℕ) (nodes : List Node) (conns : List Conn) (b : Node) (wt : ℚ)
    (hm : (b, wt) ∈ connCandidates rexp rsqrt refPx ax ay elapsed w h aIdx aId nodes conns) :
    b ∈ nodes ∧ connectionExists conns aId b.id = false := by
  rw [connCandidates] at hm
  obtain ⟨p, hp, hf⟩ := List.mem_filterMap.mp hm
  simp only [] at hf
  split_ifs at hf with h1 h2 h3
  · rw [Option.some.injEq, Prod.mk.injEq] at hf
    obtain ⟨hb, hw⟩ := hf
    subst hb
    refine ⟨List.getElem?_mem (List.mem_enum_iff_getElem?.mp hp),
      Bool.eq_false_iff.mpr h3⟩


lemma connChosen_spec (rexp rsqrt : ℚ → ℚ) (w h uA uPick elapsed : ℚ) (s : St)
    (hne : connCands rexp rsqrt w h uA elapsed s ≠ []) :
    connChosen rexp rsqrt w h uA uPick elapsed s ∈ s.nodes
    ∧ connectionExists s.connections (connA uA s).id
        (connChosen rexp rsqrt w h uA uPick elapsed s).id = false := by
  have hmem : connChosen rexp rsqrt w h uA uPick elapsed s
      ∈ (connCands rexp rsqrt w h uA elapsed s).map Prod.fst := by
    rw [connChosen]
    rcases pickChosen_mem (connCands rexp rsqrt w h uA elapsed s)
        (uPick * ((connCands rexp rsqrt w h uA elapsed s).map fun c => c.2).sum)
        ((connCands rexp rsqrt w h uA elapsed s).headD (dNode, 0)).1 with h | h
    · rw [h]
      exact headD_fst_mem_map _ _ hne
    · exact h
  obtain ⟨bw, hbw, hb⟩ := List.mem_map.mp hmem
  have hc := connCandidates_mem rexp rsqrt (DIST_REF * rsqrt (w * w + h * h))
    (nodePos (connA uA s) elapsed w h).1 (nodePos (connA uA s) elapsed w h).2
    elapsed w h (randIdx uA s.nodes.length) (connA uA s).id s.nodes s.connections
    bw.1 bw.2 (by rwa [connCands] at hbw)
  rw [← hb]
  exact hc

/-- Claim C5: a connection created by `trySpawnConnection` has lifetime
exactly `min(a.remainingLifetime, b.remainingLifetime)` computed at
creation time and at least 2 (when the minimum is below 2 the pool is not
mutated); and after any frame, every surviving connection has both
endpoint ids present in the node pool and is not past its own lifetime
(the prune pass runs after the node prune in the same frame). -/
theorem c5_connection_lifetime_and_prune :
    (∀ (w h : ℚ) (rexp rsqrt : ℚ → ℚ) (uA uPick elapsed : ℚ) (s : St),
      0 ≤ uA → uA < 1 →
      (trySpawnConnection w h rexp rsqrt uA uPick elapsed s).connections = s.connections
      ∨ ∃ (c : Conn) (na nb : Node), na ∈ s.nodes ∧ nb ∈ s.nodes
          ∧ (trySpawnConnection w h rexp rsqrt uA uPick elapsed s).connections
              = s.connections ++ [c]
          ∧ c.idA = na.id ∧ c.idB = nb.id ∧ c.birthTime = elapsed
          ∧ c.lifetime = min (na.lifetime - (elapsed - na.birthTime))
              (nb.lifetime - (elapsed - nb.birthTime))
          ∧ 2 ≤ c.lifetime)
    ∧ (∀ (rm : Bool) (f : FrameIn) (s : St), ∀ c ∈ (frameStep rm f s).connections,
        hasNode (frameStep rm f s).nodes c.idA = true
        ∧ hasNode (frameStep rm f s).nodes c.idB = true
        ∧ f.elapsed - c.birthTime ≤ c.lifetime) := by
  constructor
  · intro w h rexp rsqrt uA uPick elapsed s h0 h1
    rw [trySpawnConnection]
    split_ifs with hc1 hc2 hc3 hc4 hc5
    · exact Or.inl rfl
    · exact Or.inl rfl
    · exact Or.inl rfl
    · exact Or.inl rfl
    · exact Or.inl rfl
    · refine Or.inr ⟨_, connA uA s, connChosen rexp rsqrt w h uA uPick elapsed s,
        ?_, ?_, rfl, rfl, rfl, rfl, rfl, ?_⟩
      · exact connA_mem uA s h0 h1 (by push_neg at hc2; omega)
      · have hne : connCands rexp rsqrt w h uA elapsed s ≠ [] := by
          intro hnil
          exact hc4 (Or.inl (by rw [hnil]; rfl))
        exact (connChosen_spec rexp rsqrt w h uA uPick elapsed s hne).1
      · exact not_lt.mp hc5
  · intro rm f s c hc
    have hmem : c ∈ ((pruneNodes f.elapsed
        (frameSpawnConn rm f (frameSpawnNode rm f (frameColor f s)))).connections.filter
          fun c => !decide (f.elapsed - c.birthTime > c.lifetime)
            && hasNode (pruneNodes f.elapsed
                (frameSpawnConn rm f (frameSpawnNode rm f (frameColor f s)))).nodes c.idA
            && hasNode (pruneNodes f.elapsed
                (frameSpawnConn rm f (frameSpawnNode rm f (frameColor f s)))).nodes c.idB) := hc
    obtain ⟨hin, hp⟩ := List.mem_filter.mp hmem
    have hsplit := hp
    rw [Bool.and_eq_true, Bool.and_eq_true] at hsplit
    obtain ⟨⟨hlife, hA⟩, hB⟩ := hsplit
    refine ⟨hA, hB, ?_⟩
    rw [Bool.not_eq_eq_eq_not, Bool.not_true, decide_eq_false_iff_not] at hlife
    exact not_lt.mp hlife

/-- Witness for C5: on the freshly initialized state (fewer than 2 nodes)
the spawn attempt leaves the connection pool unchanged. -/
theorem c5_connection_lifetime_and_prune_witness :
    (0 : ℚ) ≤ 0
    ∧ ((trySpawnConnection 100 100 (fun _ => 1) (fun _ => 0) 0 0 5 initSt).connections
          = initSt.connections
        ∨ ∃ (c : Conn) (na nb : Node), na ∈ initSt.nodes ∧ nb ∈ initSt.nodes
            ∧ (trySpawnConnection 100 100 (fun _ => 1) (fun _ => 0) 0 0 5 initSt).connections
                = initSt.connections ++ [c]
            ∧ c.idA = na.id ∧ c.idB = nb.id ∧ c.birthTime = 5
            ∧ c.lifetime = min (na.lifetime - (5 - na.birthTime))
                (nb.lifetime - (5 - nb.birthTime))
            ∧ 2 ≤ c.lifetime) :=
  ⟨le_refl 0,
   c5_connection_lifetime_and_prune.1 100 100 (fun _ => 1) (fun _ => 0) 0 0 5 initSt
     (le_refl 0) (by norm_num)⟩

/-! Pair-uniqueness invariant over reachable states. -/

/-- Two connections reference the same unordered pair of node ids. -/
def samePair (c1 c2 : Conn) : Prop :=
  (c1.idA = c2.idA ∧ c1.idB = c2.idB) ∨ (c1.idA = c2.idB ∧ c1.idB = c2.idA)

/-- Pair-uniqueness: no two connections in the list share an unordered pair. -/
def ConnsOK (conns : List Conn) : Prop :=
  conns.Pairwise fun c1 c2 => ¬ samePair c1 c2

lemma NodesFresh_of_eq (s s1 : St) (hn : s1.nodes = s.nodes)
    (hi : s1.nextId = s.nextId) (h : NodesFresh s) : NodesFresh s1 := by
  rw [NodesFresh, hn, hi]
  exact h

lemma ConnsOK_append (conns : List Conn) (nc : Conn) (hok : ConnsOK conns)
    (hex : connectionExists conns nc.idA nc.idB = false) :
    ConnsOK (conns ++ [nc]) := by
  rw [ConnsOK, List.pairwise_append]
  refine ⟨hok, List.pairwise_singleton _ _, ?_⟩
  intro a ha b hb
  rw [List.mem_singleton.mp hb]
  intro hsp
  have habs : ((a.idA == nc.idA && a.idB == nc.idB)
      || (a.idA == nc.idB && a.idB == nc.idA)) = true := by
    rcases hsp with ⟨h1, h2⟩ | ⟨h1, h2⟩ <;> simp [h1, h2]
  have hany : (conns.any fun c => (c.idA == nc.idA && c.idB == nc.idB)
      || (c.idA == nc.idB && c.idB == nc.idA)) = true :=
    List.any_eq_true.mpr ⟨a, ha, habs⟩
  rw [connectionExists] at hex
  rw [hex] at hany
  exact Bool.false_ne_true hany

lemma ConnsOK_filter (conns : List Conn) (p : Conn → Bool) (h : ConnsOK conns) :
    ConnsOK (conns.filter p) :=
  List.Pairwise.sublist (List.filter_sublist conns) h

lemma NodesFresh_filter (s : St) (p : Node → Bool) (h : NodesFresh s) :
    NodesFresh { s with nodes := s.nodes.filter p } := by
  refine ⟨?_, List.Pairwise.sublist (List.filter_sublist s.nodes) h.2⟩
  intro n hn
  exact h.1 n (List.mem_of_mem_filter hn)

lemma spawnNodeGo_connections (time : ℚ) (gen : ℕ → CRand) : ∀ (fuel k : ℕ) (s : St),
    (spawnNodeGo time gen k fuel s).connections = s.connections := by
  intro fuel
  induction fuel with
  | zero => intro k s; rfl
  | succ m ih =>
      intro k s
      simp only [spawnNodeGo]
      split
      · exact ih (k + 1) _
      · rfl

lemma spawnNodeGo_fresh (time : ℚ) (gen : ℕ → CRand) : ∀ (fuel k : ℕ) (s : St),
    NodesFresh s → NodesFresh (spawnNodeGo time gen k fuel s) := by
  intro fuel
  induction fuel with
  | zero => intro k s h; exact h
  | succ m ih =>
      intro k s h
      simp only [spawnNodeGo]
      split
      · exact ih (k + 1) _ (bump_fresh s h)
      · exact push_fresh s time (gen k) h

lemma spawnNode_fresh (gen : ℕ → CRand) (time : ℚ) (s : St) (h : NodesFresh s) :
    NodesFresh (spawnNode gen time s) := by
  rw [spawnNode]
  split
  · exact h
  · exact spawnNodeGo_fresh time gen 8 0 s h

lemma spawnNode_connections (gen : ℕ → CRand) (time : ℚ) (s : St) :
    (spawnNode gen time s).connections = s.connections := by
  rw [spawnNode]
  split
  · rfl
  · exact spawnNodeGo_connections time gen 8 0 s

lemma seedTry_connections (ds : ℕ → CRand) (st : ℚ) : ∀ (fuel k : ℕ) (s : St),
    (seedTry ds st k fuel s).1.connections = s.connections := by
  intro fuel
  induction fuel with
  | zero => intro k s; rfl
  | succ m ih =>
      intro k s
      simp only [seedTry]
      split
      · exact ih (k + 1) _
      · rfl

lemma seedIter_connections (d : SeedDraw) (s : St) :
    (seedIter d s).connections = s.connections := by
  rw [seedIter]
  have h1 := seedTry_connections d.cands (-(d.uStagger * NODE_LIFETIME_MAX * (1/2))) 10 0 s
  split
  · exact h1
  · exact h1

lemma seedNodesGo_connections (dr : ℕ → SeedDraw) : ∀ (k i : ℕ) (s : St),
    (seedNodesGo dr i k s).connections = s.connections := by
  intro k
  induction k with
  | zero => intro i s; rfl
  | succ m ih =>
      intro i s
      show (seedNodesGo dr (i+1) m (seedIter (dr i) s)).connections = _
      rw [ih (i+1) (seedIter (dr i) s), seedIter_connections]

lemma seedConnGo_nodes (sw sh refPx : ℚ) (rexp rsqrt : ℚ → ℚ) (dr : ℕ → ConnSeed) :
    ∀ (fuel att spawned : ℕ) (s : St),
    (seedConnGo sw sh refPx rexp rsqrt dr att fuel spawned s).nodes = s.nodes
    ∧ (seedConnGo sw sh refPx rexp rsqrt dr att fuel spawned s).nextId = s.nextId := by
  intro fuel
  induction fuel with
  | zero => intro att spawned s; exact ⟨rfl, rfl⟩
  | succ m ih =>
      intro att spawned s
      simp only [seedConnGo]
      split_ifs
      all_goals first
        | exact ⟨rfl, rfl⟩
        | exact ih (att + 1) spawned s
        | exact ih (att + 1) (spawned + 1) _

lemma seedConnGo_connsOK (sw sh refPx : ℚ) (rexp rsqrt : ℚ → ℚ) (dr : ℕ → ConnSeed) :
    ∀ (fuel att spawned : ℕ) (s : St),
    ConnsOK s.connections →
    ConnsOK (seedConnGo sw sh refPx rexp rsqrt dr att fuel spawned s).connections := by
  intro fuel
  induction fuel with
  | zero => intro att spawned s h; exact h
  | succ m ih =>
      intro att spawned s h
      simp only [seedConnGo]
      split_ifs with h1 h2 h3 h4 h5
      · exact h
      · exact ih (att + 1) spawned s h
      · exact ih (att + 1) spawned s h
      · exact ih (att + 1) spawned s h
      · exact ih (att + 1) spawned s h
      · refine ih (att + 1) (spawned + 1) _ ?_
        exact ConnsOK_append s.connections _ h (Bool.eq_false_iff.mpr h3)


lemma trySpawnConnection_nodes (w h : ℚ) (rexp rsqrt : ℚ → ℚ)
    (uA uPick elapsed : ℚ) (s : St) :
    (trySpawnConnection w h rexp rsqrt uA uPick elapsed s).nodes = s.nodes
    ∧ (trySpawnConnection w h rexp rsqrt uA uPick elapsed s).nextId = s.nextId := by
  rw [trySpawnConnection]
  split_ifs <;> exact ⟨rfl, rfl⟩

lemma trySpawnConnection_connsOK (w h : ℚ) (rexp rsqrt : ℚ → ℚ)
    (uA uPick elapsed : ℚ) (s : St) (hok : ConnsOK s.connections) :
    ConnsOK (trySpawnConnection w h rexp rsqrt uA uPick elapsed s).connections := by
  rw [trySpawnConnection]
  split_ifs with h1 h2 h3 h4 h5
  · exact hok
  · exact hok
  · exact hok
  · exact hok
  · exact hok
  · have hne : connCands rexp rsqrt w h uA elapsed s ≠ [] := by
      intro hnil
      exact h4 (Or.inl (by rw [hnil]; rfl))
    exact ConnsOK_append s.connections _ hok
      ((connChosen_spec rexp rsqrt w h uA uPick elapsed s hne).2)

/-- The pair-uniqueness and id-freshness invariant. -/
def Inv (s : St) : Prop := NodesFresh s ∧ ConnsOK s.connections

lemma frameColor_inv (f : FrameIn) (s : St) (h : Inv s) : Inv (frameColor f s) :=
  ⟨NodesFresh_of_eq s _ rfl rfl h.1, h.2⟩

lemma frameSpawnNode_inv (rm : Bool) (f : FrameIn) (s : St) (h : Inv s) :
    Inv (frameSpawnNode rm f s) := by
  rw [frameSpawnNode]
  split
  · constructor
    · exact NodesFresh_of_eq (spawnNode f.nodeGen f.elapsed s) _ rfl rfl
        (spawnNode_fresh f.nodeGen f.elapsed s h.1)
    · show ConnsOK (spawnNode f.nodeGen f.elapsed s).connections
      rw [spawnNode_connections]
      exact h.2
  · exact h

lemma frameSpawnConn_inv (rm : Bool) (f : FrameIn) (s : St) (h : Inv s) :
    Inv (frameSpawnConn rm f s) := by
  rw [frameSpawnConn]
  split
  · constructor
    · exact NodesFresh_of_eq s _
        (trySpawnConnection_nodes f.w f.h f.rexp f.rsqrt f.uA f.uPick f.elapsed s).1
        (trySpawnConnection_nodes f.w f.h f.rexp f.rsqrt f.uA f.uPick f.elapsed s).2 h.1
    · exact trySpawnConnection_connsOK f.w f.h f.rexp f.rsqrt f.uA f.uPick f.elapsed s h.2
  · exact h

lemma pruneNodes_inv (elapsed : ℚ) (s : St) (h : Inv s) : Inv (pruneNodes elapsed s) :=
  ⟨NodesFresh_filter s _ h.1, h.2⟩

lemma pruneConns_inv (elapsed : ℚ) (s : St) (h : Inv s) : Inv (pruneConns elapsed s) :=
  ⟨NodesFresh_of_eq s _ rfl rfl h.1, ConnsOK_filter s.connections _ h.2⟩

lemma frameStep_inv (rm : Bool) (f : FrameIn) (s : St) (h : Inv s) :
    Inv (frameStep rm f s) :=
  pruneConns_inv _ _ (pruneNodes_inv _ _
    (frameSpawnConn_inv _ _ _ (frameSpawnNode_inv _ _ _ (frameColor_inv _ _ h))))

lemma seedNodes_inv (dr : ℕ → SeedDraw) (s : St) (h : Inv s) :
    Inv (seedNodes dr s) := by
  constructor
  · exact seedNodesGo_fresh dr 40 0 s h.1
  · show ConnsOK (seedNodesGo dr 0 40 s).connections
    rw [seedNodesGo_connections]
    exact h.2

lemma seedConnections_eq (w h : ℚ) (rexp rsqrt : ℚ → ℚ) (dr : ℕ → ConnSeed) (s : St) :
    seedConnections w h rexp rsqrt dr s =
      seedConnGo (if w = 0 then 1200 else w) (if h = 0 then 800 else h)
        (DIST_REF * rsqrt ((if w = 0 then 1200 else w) * (if w = 0 then 1200 else w)
          + (if h = 0 then 800 else h) * (if h = 0 then 800 else h)))
        rexp rsqrt dr 0 100 0 s := rfl

lemma seedConnections_inv (w h : ℚ) (rexp rsqrt : ℚ → ℚ) (dr : ℕ → ConnSeed)
    (s : St) (hv : Inv s) : Inv (seedConnections w h rexp rsqrt dr s) := by
  rw [seedConnections_eq]
  constructor
  · exact NodesFresh_of_eq s _ (seedConnGo_nodes _ _ _ rexp rsqrt dr 100 0 0 s).1
      (seedConnGo_nodes _ _ _ rexp rsqrt dr 100 0 0 s).2 hv.1
  · exact seedConnGo_connsOK _ _ _ rexp rsqrt dr 100 0 0 s hv.2

/-- The states reachable by the program: module init, `seedNodes()`,
`seedConnections()`, then any number of `render()` frames (with any
randomness, risk scores, flag, and canvas dimensions). -/
inductive Reachable : St → Prop where
  | seeded (w h : ℚ) (rexp rsqrt : ℚ → ℚ) (ndr : ℕ → SeedDraw) (cdr : ℕ → ConnSeed) :
      Reachable (seedConnections w h rexp rsqrt cdr (seedNodes ndr initSt))
  | step (rm : Bool) (f : FrameIn) (s : St) : Reachable s → Reachable (frameStep rm f s)

/-- Claim C4: at every reachable state, no two live connections reference
the same unordered pair of node ids; node ids are all below the id counter
and pairwise distinct (ids are never reused). -/
theorem c4_pair_uniqueness (s : St) (h : Reachable s) :
    (s.connections.Pairwise fun c1 c2 => ¬ samePair c1 c2)
    ∧ (∀ n ∈ s.nodes, n.id < s.nextId)
    ∧ s.nodes.Pairwise fun a b => a.id ≠ b.id := by
  have key : Inv s := by
    induction h with
    | seeded w h rexp rsqrt ndr cdr =>
        refine seedConnections_inv w h rexp rsqrt cdr _ (seedNodes_inv ndr initSt ?_)
        exact ⟨⟨fun n hn => absurd hn (List.not_mem_nil n), List.Pairwise.nil⟩,
          List.Pairwise.nil⟩
    | step rm f s hs ih => exact frameStep_inv rm f s ih
  exact ⟨key.2, key.1.1, key.1.2⟩

/-- Witness for C4: the invariant at a concrete seeded state. -/
theorem c4_pair_uniqueness_witness :
    (seedConnections 100 100 (fun _ => 1) (fun _ => 0) (fun _ => ⟨0, 0, 0, 0⟩)
        (seedNodes drHalf initSt)).connections.Pairwise
      (fun c1 c2 => ¬ samePair c1 c2) :=
  (c4_pair_uniqueness _
    (Reachable.seeded 100 100 (fun _ => 1) (fun _ => 0) drHalf (fun _ => ⟨0, 0, 0, 0⟩))).1

/-! Reduced-motion thinning. -/

lemma frameSpawnNode_true (f : FrameIn) (s : St) : frameSpawnNode true f s = s := by
  rw [frameSpawnNode, if_neg]
  simp

lemma frameSpawnConn_true (f : FrameIn) (s : St) : frameSpawnConn true f s = s := by
  rw [frameSpawnConn, if_neg]
  simp

lemma frameStep_true (f : FrameIn) (s : St) :
    frameStep true f s = pruneConns f.elapsed (pruneNodes f.elapsed (frameColor f s)) := by
  rw [frameStep, frameSpawnNode_true, frameSpawnConn_true]

/-- The seeded death-time bound: every node dies by `NODE_LIFETIME_MAX`. -/
def DiesByMax (n : Node) : Prop := n.birthTime + n.lifetime ≤ NODE_LIFETIME_MAX

lemma createNode_diesByMax (time : ℚ) (u : CRand) (nid : ℕ)
    (ht : time ≤ 0) (hu : u.ul ≤ 1) : DiesByMax (createNode time u nid) := by
  show time + (NODE_LIFETIME_MIN + u.ul * (NODE_LIFETIME_MAX - NODE_LIFETIME_MIN))
      ≤ NODE_LIFETIME_MAX
  rw [NODE_LIFETIME_MIN, NODE_LIFETIME_MAX]
  nlinarith

lemma seedTry_diesByMax (ds : ℕ → CRand) (st : ℚ) (hst : st ≤ 0)
    (hul : ∀ k, (ds k).ul ≤ 1) : ∀ (fuel k : ℕ) (s : St),
    (∀ n ∈ s.nodes, DiesByMax n) →
    ∀ n ∈ (seedTry ds st k fuel s).1.nodes, DiesByMax n := by
  intro fuel
  induction fuel with
  | zero => intro k s h; exact h
  | succ m ih =>
      intro k s h
      simp only [seedTry]
      split
      · exact ih (k + 1) _ h
      · intro n hn
        rcases List.mem_append.mp hn with hn | hn
        · exact h n hn
        · rw [List.mem_singleton.mp hn]
          exact createNode_diesByMax st (ds k) s.nextId hst (hul k)

lemma seedIter_diesByMax (d : SeedDraw) (s : St) (hst : 0 ≤ d.uStagger)
    (hul : ∀ k, (d.cands k).ul ≤ 1) (h : ∀ n ∈ s.nodes, DiesByMax n) :
    ∀ n ∈ (seedIter d s).nodes, DiesByMax n := by
  have hneg : -(d.uStagger * NODE_LIFETIME_MAX * (1/2)) ≤ 0 := by
    rw [NODE_LIFETIME_MAX]
    nlinarith
  rw [seedIter]
  have h1 := seedTry_diesByMax d.cands _ hneg hul 10 0 s h
  split
  · exact h1
  · intro n hn
    rcases List.mem_append.mp hn with hn | hn
    · exact h1 n hn
    · rw [List.mem_singleton.mp hn]
      exact createNode_diesByMax _ (d.cands 10) _ hneg (hul 10)

lemma seedNodesGo_diesByMax (dr : ℕ → SeedDraw) (hst : ∀ i, 0 ≤ (dr i).uStagger)
    (hul : ∀ i k, ((dr i).cands k).ul ≤ 1) : ∀ (k i : ℕ) (s : St),
    (∀ n ∈ s.nodes, DiesByMax n) →
    ∀ n ∈ (seedNodesGo dr i k s).nodes, DiesByMax n := by
  intro k
  induction k with
  | zero => intro i s h; exact h
  | succ m ih =>
      intro i s h
      exact ih (i + 1) _ (seedIter_diesByMax (dr i) s (hst i) (hul i) h)

/-- A run of reduced-motion frames. -/
def reducedRun (fs : List FrameIn) (s : St) : St :=
  fs.foldl (fun s f => frameStep true f s) s

lemma frameStep_true_diesByMax (f : FrameIn) (s : St)
    (h : ∀ n ∈ s.nodes, DiesByMax n) :
    ∀ n ∈ (frameStep true f s).nodes, DiesByMax n := by
  rw [frameStep_true]
  intro n hn
  exact h n (List.mem_of_mem_filter hn)

lemma reducedRun_diesByMax : ∀ (fs : List FrameIn) (s : St),
    (∀ n ∈ s.nodes, DiesByMax n) →
    ∀ n ∈ (reducedRun fs s).nodes, DiesByMax n := by
  intro fs
  induction fs with
  | nil => intro s h; exact h
  | cons f rest ih =>
      intro s h
      exact ih (frameStep true f s) (frameStep_true_diesByMax f s h)

lemma frameStep_true_kills (f : FrameIn) (s : St)
    (h : ∀ n ∈ s.nodes, DiesByMax n) (he : NODE_LIFETIME_MAX < f.elapsed) :
    (frameStep true f s).nodes = [] ∧ (frameStep true f s).connections = [] := by
  rw [frameStep_true]
  have hkill : s.nodes.filter
      (fun n => !decide (f.elapsed - n.birthTime > n.lifetime)) = [] := by
    rw [List.filter_eq_nil_iff]
    intro n hn
    have hd := h n hn
    rw [DiesByMax] at hd
    have hgt : f.elapsed - n.birthTime > n.lifetime := by linarith
    simp [hgt]
  constructor
  · show ((pruneNodes f.elapsed (frameColor f s)).nodes) = []
    show (frameColor f s).nodes.filter _ = []
    exact hkill
  · show ((pruneNodes f.elapsed (frameColor f s)).connections.filter _) = []
    rw [List.filter_eq_nil_iff]
    intro c hc
    have hnodes : (pruneNodes f.elapsed (frameColor f s)).nodes = [] := hkill
    rw [hnodes]
    simp [hasNode]

lemma frameStep_true_empty (f : FrameIn) (s : St) (hn : s.nodes = [])
    (hc : s.connections = []) :
    (frameStep true f s).nodes = [] ∧ (frameStep true f s).connections = [] := by
  rw [frameStep_true]
  constructor
  · show (frameColor f s).nodes.filter _ = []
    show s.nodes.filter _ = []
    rw [hn]
    rfl
  · show (pruneNodes f.elapsed (frameColor f s)).connections.filter _ = []
    show s.connections.filter _ = []
    rw [hc]
    rfl

lemma reducedRun_empty : ∀ (fs : List FrameIn) (s : St),
    s.nodes = [] → s.connections = [] →
    (reducedRun fs s).nodes = [] ∧ (reducedRun fs s).connections = [] := by
  intro fs
  induction fs with
  | nil => intro s hn hc; exact ⟨hn, hc⟩
  | cons f rest ih =>
      intro s hn hc
      obtain ⟨hn1, hc1⟩ := frameStep_true_empty f s hn hc
      exact ih (frameStep true f s) hn1 hc1


/-- Claim C7: with the reduced-motion flag set, a frame is exactly color
smoothing plus the two prune passes (no spawn calls); consequently, from
any seeded initial state (randomness in range) and any sequence of
reduced-motion frames, as soon as one frame's simulated time exceeds the
maximum node lifetime both pools are empty, and they stay empty for every
subsequent frame. -/
theorem c7_reduced_motion_empties_pools :
    (∀ (f : FrameIn) (s : St),
      frameStep true f s = pruneConns f.elapsed (pruneNodes f.elapsed (frameColor f s)))
    ∧ (∀ (ndr : ℕ → SeedDraw),
        (∀ i, 0 ≤ (ndr i).uStagger) → (∀ i k, ((ndr i).cands k).ul ≤ 1) →
        ∀ (w h : ℚ) (rexp rsqrt : ℚ → ℚ) (cdr : ℕ → ConnSeed)
          (pre : List FrameIn) (f : FrameIn) (post : List FrameIn),
        NODE_LIFETIME_MAX < f.elapsed →
        (reducedRun post (frameStep true f (reducedRun pre
            (seedConnections w h rexp rsqrt cdr (seedNodes ndr initSt))))).nodes = []
        ∧ (reducedRun post (frameStep true f (reducedRun pre
            (seedConnections w h rexp rsqrt cdr (seedNodes ndr initSt))))).connections
            = []) := by
  refine ⟨frameStep_true, ?_⟩
  intro ndr hst hul w h rexp rsqrt cdr pre f post he
  have hseed : ∀ n ∈ (seedNodes ndr initSt).nodes, DiesByMax n :=
    seedNodesGo_diesByMax ndr hst hul 40 0 initSt
      (fun n hn => absurd hn (List.not_mem_nil n))
  have hsc : ∀ n ∈ (seedConnections w h rexp rsqrt cdr (seedNodes ndr initSt)).nodes,
      DiesByMax n := by
    rw [seedConnections_eq]
    rw [(seedConnGo_nodes _ _ _ rexp rsqrt cdr 100 0 0 (seedNodes ndr initSt)).1]
    exact hseed
  have hpre := reducedRun_diesByMax pre _ hsc
  obtain ⟨hn, hc⟩ := frameStep_true_kills f _ hpre he
  exact reducedRun_empty post _ hn hc

/-- Witness for C7 at a concrete seeded state and a frame at `t = 23`. -/
theorem c7_reduced_motion_empties_pools_witness :
    NODE_LIFETIME_MAX < (23 : ℚ)
    ∧ (reducedRun [] (frameStep true
        ⟨23, none, fun _ => cHalf, 0, 0, fun _ => 1, fun _ => 0, 100, 100⟩
        (reducedRun [] (seedConnections 100 100 (fun _ => 1) (fun _ => 0)
          (fun _ => ⟨0, 0, 0, 0⟩) (seedNodes drHalf initSt))))).nodes = [] :=
  ⟨by rw [NODE_LIFETIME_MAX]; norm_num,
   (c7_reduced_motion_empties_pools.2 drHalf
      (fun _ => by norm_num [drHalf])
      (fun _ _ => by norm_num [drHalf, cHalf])
      100 100 (fun _ => 1) (fun _ => 0) (fun _ => ⟨0, 0, 0, 0⟩) []
      ⟨23, none, fun _ => cHalf, 0, 0, fun _ => 1, fun _ => 0, 100, 100⟩ []
      (by rw [NODE_LIFETIME_MAX]; norm_num)).1⟩

end NetPulse
